import Mathlib

/-!
# Verification model of the boston_geomap core

A shallow embedding, in Lean 4, of the parts of the `boston_geomap`
repository that the specification's testable claims are about:

* `geomap/timeslots.py`  — calendar slots (`slot_bounds`, leap years);
* `geomap/tiles.py`      — slippy-tile bounding boxes;
* `geomap/sos_client.py` — bbox splitting, payload merging, canonical
  grid-cell hashing;
* `geomap/storage.py`    — the SQLite storage engine (`taxon_grid`,
  `taxon_layer_state`, `grid_hotmap`, `hotmap_taxa_set`) and its
  mutators `replace_taxon_grid`, `materialize_parent_zoom_from_child`,
  `upsert_layer_state`, `rebuild_hotmap`;
* `server/app.py`        — year-range request parsing.

Modelling conventions:

* Python `int` is `ℤ`; Python `float` values that are only stored and
  compared (latitudes, longitudes) are `ℚ` (every IEEE double is a
  rational); real-valued formulas (`**` with fractional exponents,
  `atan`/`sinh`) appear as `ℝ` expressions in propositions.
* SQLite tables are Lean lists of row structures; SQL `DELETE`/`INSERT`
  becomes `List.filter`/append, `GROUP BY` becomes grouping by a key
  over a filtered list, and SQLite's truncating integer division is
  `Int.tdiv`.
* A raised Python exception is `Option.none`: fallible operations
  return `Option`.
* Dynamically-typed upstream JSON is modelled by structures of
  `Option`-fields, plus an `extra` association list standing for keys
  that the code never reads.  `d.get(k)` on a missing key is `none`
  (Python `None`); `int(None)`/`float(None)`/`d[k]` on a missing key
  raise, i.e. produce `none` at the operation level; `x or 0` is
  `Option.getD 0` (for integer `x`, `x or 0 = x` unless `x` is `0` or
  `None`, and both of those give `0`).
* Wall-clock timestamp columns (`fetched_at_utc`, `last_fetch_utc`,
  `updated_at_utc`) are omitted from row structures: no claim mentions
  them and they depend on the ambient clock, not on the data.
-/

namespace Geomap

/-! ## geomap/timeslots.py -/

/-- Python `calendar.isleap(year)`: `year % 4 == 0 and (year % 100 != 0
or year % 400 == 0)`.  Python `%` on a positive modulus returns a
non-negative remainder, which is `Int.emod`. -/
def isleap (year : ℤ) : Bool :=
  year % 4 = 0 && (year % 100 ≠ 0 || year % 400 = 0)

/-- Day counts of `calendar.mdays` for months 1..12 (February before the
leap-day adjustment). -/
def mdays (month : ℤ) : ℤ :=
  if month = 1 then 31 else if month = 2 then 28 else if month = 3 then 31
  else if month = 4 then 30 else if month = 5 then 31 else if month = 6 then 30
  else if month = 7 then 31 else if month = 8 then 31 else if month = 9 then 30
  else if month = 10 then 31 else if month = 11 then 30 else 31

/-- Python `calendar.monthrange(year, month)[1]`: the number of days of
the month.  `monthrange` raises `IllegalMonthError` outside months
1..12, and its weekday computation goes through `datetime.date`, which
raises for years outside 1..9999; both raises are `none`. -/
def monthrange_days (year month : ℤ) : Option ℤ :=
  if ¬ (1 ≤ month ∧ month ≤ 12) then none
  else if ¬ (1 ≤ year ∧ year ≤ 9999) then none
  else some (mdays month + if month = 2 && isleap year then 1 else 0)

/-- `geomap/timeslots.py` dataclass `TimeSlot`. -/
structure TimeSlot where
  slot_id : ℤ
  month : ℤ
  quartile : ℤ
  start_day : ℤ
  end_day : ℤ
deriving DecidableEq, Repr

/-- `timeslots.slot_bounds(month, quartile, year_for_days)`: start day
from the quartile table, end day from the month's length; raises
(`none`) on a quartile outside 1..4 or a month outside 1..12. -/
def slot_bounds (month quartile year_for_days : ℤ) : Option TimeSlot :=
  if ¬ (quartile = 1 ∨ quartile = 2 ∨ quartile = 3 ∨ quartile = 4) then none
  else if ¬ (1 ≤ month ∧ month ≤ 12) then none
  else
    let start_day : ℤ :=
      if quartile = 1 then 1 else if quartile = 2 then 8
      else if quartile = 3 then 15 else 22
    match monthrange_days year_for_days month with
    | none => none
    | some last =>
      let end_day : ℤ :=
        if quartile = 1 then 7 else if quartile = 2 then 14
        else if quartile = 3 then 21 else last
      some ⟨(month - 1) * 4 + quartile, month, quartile, start_day, end_day⟩

/-! ## server/app.py — year-range request parsing

`server/app.py` imports `YEAR_ALL`, `YEAR_MIN`, `YEAR_MAX` from
`geomap.storage`, where they are not defined.

Modelled from the spec: `YEAR_ALL = 0` («`year y` ∈ {0, valid calendar
year}; 0 = all-years aggregate», and the code's own comment «If someone
passes 0 explicitly, treat as "all-years aggregate"»).  The bounds
`YEAR_MIN`/`YEAR_MAX` of «valid calendar year» are left as parameters
of the parsing functions. -/

def YEAR_ALL : ℤ := 0

/-- `app.parse_year(value)` for a well-formed integer argument: `0`
passes through as the all-years sentinel, values outside
`[YEAR_MIN, YEAR_MAX]` raise `BadRequest` (`none`). -/
def parse_year (year_min year_max y : ℤ) : Option ℤ :=
  if y = YEAR_ALL then some YEAR_ALL
  else if y < year_min ∨ y > year_max then none
  else some y

/-- `app.parse_year_range_args(args)` for well-formed integer
arguments: absent/absent gives `(0, 0)`; a single present value is used
for both ends; an explicit `0` on either end collapses to `(0, 0)`; a
reversed pair is swapped. -/
def parse_year_range_args (year_min year_max : ℤ)
    (year_from year_to : Option ℤ) : Option (ℤ × ℤ) :=
  match year_from, year_to with
  | none, none => some (YEAR_ALL, YEAR_ALL)
  | some yf, none =>
    (parse_year year_min year_max yf).bind fun yfi =>
    (parse_year year_min year_max yf).map fun yti => normPair yfi yti
  | none, some yt =>
    (parse_year year_min year_max yt).bind fun yfi =>
    (parse_year year_min year_max yt).map fun yti => normPair yfi yti
  | some yf, some yt =>
    (parse_year year_min year_max yf).bind fun yfi =>
    (parse_year year_min year_max yt).map fun yti => normPair yfi yti
where
  /-- The tail of `parse_year_range_args`: collapse on an explicit
  all-years `0`, then order the pair. -/
  normPair (yfi yti : ℤ) : ℤ × ℤ :=
    if yfi = YEAR_ALL ∨ yti = YEAR_ALL then (YEAR_ALL, YEAR_ALL)
    else if yfi > yti then (yti, yfi) else (yfi, yti)

/-! ## geomap/tiles.py — slippy-tile bounding boxes

`tile_bbox_latlon(x, y, z)` returns
`(top_lat, left_lon, bottom_lat, right_lon)` with
`lon = x/n*360 - 180`, `lat = atan(sinh(pi*(1 - 2*y/n)))*180/pi`,
`n = 2^z`.  The longitudes are exact rationals; the latitudes are
transcendental, so they are stated as `ℝ` expressions in propositions
(`tile_lat_real`). -/

/-- Longitude of the left edge of slippy tile column `x` at zoom `z`:
`x / n * 360 - 180`. -/
def tile_lon (z x : ℤ) : ℚ := (x : ℚ) / (2 ^ z.toNat : ℚ) * 360 - 180

/-- `lat = atan(sinh(pi*(1 - 2*y/n)))*180/pi` — the graph of
`lat_from_ytile` in `tiles.py` and `storage.py` (a proposition, since
the value is transcendental). -/
def is_tile_lat (z y : ℤ) (lat : ℝ) : Prop :=
  lat = Real.arctan (Real.sinh (Real.pi * (1 - 2 * (y : ℝ) / (2 ^ z.toNat : ℝ)))) * 180 / Real.pi

/-- The claim's reading of the TaxonGrid bbox invariant: the four
stored coordinates agree with the slippy-tile bbox of `(zoom, x, y)` —
`(lat_from_ytile y, lon x, lat_from_ytile (y+1), lon (x+1))` — within
`1e-6` in latitude and longitude. -/
def bbox_matches_slippy (z x y : ℤ) (top_lat left_lon bottom_lat right_lon : ℚ) : Prop :=
  ∃ latTop latBot : ℝ, is_tile_lat z y latTop ∧ is_tile_lat z (y + 1) latBot ∧
    |(top_lat : ℝ) - latTop| ≤ 1/1000000 ∧
    |(left_lon : ℝ) - (tile_lon z x : ℝ)| ≤ 1/1000000 ∧
    |(bottom_lat : ℝ) - latBot| ≤ 1/1000000 ∧
    |(right_lon : ℝ) - (tile_lon z (x + 1) : ℝ)| ≤ 1/1000000

/-! ## Upstream JSON payloads (`gridCells`)

The upstream `GeoGridAggregation` response is dynamically typed JSON.
A grid cell is modelled with one `Option` field per key the code
reads, plus `extra` for keys it never reads; likewise for the nested
`boundingBox` objects and for the payload itself. -/

/-- A JSON point object `topLeft` / `bottomRight`:
keys `latitude`, `longitude`. -/
structure GeoPoint where
  latitude : Option ℚ
  longitude : Option ℚ
  extra : List (String × String) := []
deriving DecidableEq, Repr

/-- A JSON `boundingBox` object: keys `topLeft`, `bottomRight`. -/
structure BoundingBox where
  topLeft : Option GeoPoint
  bottomRight : Option GeoPoint
  extra : List (String × String) := []
deriving DecidableEq, Repr

/-- One element of `gridCells`. -/
structure GridCell where
  x : Option ℤ
  y : Option ℤ
  zoom : Option ℤ
  observationsCount : Option ℤ
  taxaCount : Option ℤ
  boundingBox : Option BoundingBox
  extra : List (String × String) := []
deriving DecidableEq, Repr

/-- A `GeoGridAggregation` payload: the `gridCells` list plus the
top-level keys the code carries but never inspects. -/
structure Payload where
  extra : List (String × String) := []
  gridCells : List GridCell
deriving DecidableEq, Repr

/-- The empty JSON object `{}` used by `bb.get("topLeft") or {}`. -/
def emptyPoint : GeoPoint := ⟨none, none, []⟩

/-- The empty JSON object `{}` used by `c.get("boundingBox") or {}`. -/
def emptyBox : BoundingBox := ⟨none, none, []⟩

/-- `int(c.get("observationsCount") or 0)`. -/
def obsD (c : GridCell) : ℤ := c.observationsCount.getD 0

/-- `int(c.get("taxaCount") or 0)`. -/
def taxaD (c : GridCell) : ℤ := c.taxaCount.getD 0

/-- The hash-relevant projection of a cell: the fields the canonical
hash and the merge read, with every unread (`extra`) key dropped,
recursively. -/
def projCell (c : GridCell) : GridCell :=
  { x := c.x, y := c.y, zoom := c.zoom,
    observationsCount := c.observationsCount, taxaCount := c.taxaCount,
    boundingBox := c.boundingBox.map fun bb =>
      { topLeft := bb.topLeft.map fun p => { latitude := p.latitude, longitude := p.longitude, extra := [] },
        bottomRight := bb.bottomRight.map fun p => { latitude := p.latitude, longitude := p.longitude, extra := [] },
        extra := [] },
    extra := [] }

/-! ## geomap/sos_client.py — `stable_gridcells_hash`

The source sorts the projected 9-tuples by `(x, y)` with Python's
stable `list.sort`, serializes the sorted list as compact JSON, and
returns its SHA-256 hex digest.  The serialization is injective on
these tuples, so digest equality is equality of the sorted tuple
lists; the model therefore returns the canonical sorted list itself
(the digest is a deterministic function of it). -/

/-- The projected 9-tuple appended to `slim` for each cell. -/
structure SlimCell where
  x : ℤ
  y : ℤ
  zoom : ℤ
  observationsCount : ℤ
  taxaCount : ℤ
  top_lat : ℚ
  top_lon : ℚ
  bot_lat : ℚ
  bot_lon : ℚ
deriving DecidableEq, Repr, Inhabited

/-- Build the slim tuple of one cell: `int(c.get("x"))` raises on a
missing key (`int(None)`), the two counts are coerced with `or 0`, and
the four `float(...)` coordinate reads raise on a missing key. -/
def slimOfCell (c : GridCell) : Option SlimCell := do
  let x ← c.x
  let y ← c.y
  let z ← c.zoom
  let bb := c.boundingBox.getD emptyBox
  let tl := bb.topLeft.getD emptyPoint
  let br := bb.bottomRight.getD emptyPoint
  let tlat ← tl.latitude
  let tlon ← tl.longitude
  let blat ← br.latitude
  let blon ← br.longitude
  some ⟨x, y, z, obsD c, taxaD c, tlat, tlon, blat, blon⟩

/-- Python tuple comparison `(x, y) <= (x', y')`: lexicographic. -/
def keyLE (a b : ℤ × ℤ) : Bool :=
  decide (a.1 < b.1 ∨ (a.1 = b.1 ∧ a.2 ≤ b.2))

/-- Sort-key comparison of `slim.sort(key=lambda t: (t[0], t[1]))`. -/
def slimLE (a b : SlimCell) : Bool := keyLE (a.x, a.y) (b.x, b.y)

/-- Stable insertion into a list whose earlier elements are kept in
front of equal-key later arrivals — Python's `list.sort` is stable. -/
def stableInsert (le : α → α → Bool) (a : α) : List α → List α
  | [] => [a]
  | b :: l => if le b a then b :: stableInsert le a l else a :: b :: l

/-- A stable sort (insertion sort), modelling Python's stable
`list.sort(key=...)`. -/
def stableSort (le : α → α → Bool) (l : List α) : List α :=
  l.foldl (fun acc a => stableInsert le a acc) []

/-- `sos_client.stable_gridcells_hash(payload)`, up to the final
injective JSON-serialize-and-SHA-256 step: the canonical sorted list
of projected tuples that the digest is computed from.  Raises
(`none`) exactly when the source raises. -/
def stable_gridcells_hash (p : Payload) : Option (List SlimCell) :=
  (p.gridCells.mapM slimOfCell).map (stableSort slimLE)

/-! ## geomap/sos_client.py — bbox split, payload merge, resilient fetch -/

/-- `sos_client.BBox` (floats modelled as `ℚ`). -/
structure BBox where
  top_lat : ℚ
  left_lon : ℚ
  bottom_lat : ℚ
  right_lon : ℚ
deriving DecidableEq, Repr

/-- `sos_client._split_bbox_4(bb)`: NW, NE, SW, SE quadrants cut at
the mid latitude and mid longitude. -/
def split_bbox_4 (bb : BBox) : List BBox :=
  let mid_lat := (bb.top_lat + bb.bottom_lat) / 2
  let mid_lon := (bb.left_lon + bb.right_lon) / 2
  [ ⟨bb.top_lat, bb.left_lon, mid_lat, mid_lon⟩,
    ⟨bb.top_lat, mid_lon, mid_lat, bb.right_lon⟩,
    ⟨mid_lat, bb.left_lon, bb.bottom_lat, mid_lon⟩,
    ⟨mid_lat, mid_lon, bb.bottom_lat, bb.right_lon⟩ ]

/-- A geographic point lies in the closed box. -/
def inBBox (bb : BBox) (lat lon : ℚ) : Prop :=
  bb.bottom_lat ≤ lat ∧ lat ≤ bb.top_lat ∧ bb.left_lon ≤ lon ∧ lon ≤ bb.right_lon

/-- A geographic point lies in the open interior of the box. -/
def inBBoxInterior (bb : BBox) (lat lon : ℚ) : Prop :=
  bb.bottom_lat < lat ∧ lat < bb.top_lat ∧ bb.left_lon < lon ∧ lon < bb.right_lon

/-- `(int(c.get("x")), int(c.get("y")))`, the merge key of a cell;
`none` when either key is missing (`int(None)` raises). -/
def cellKey (c : GridCell) : Option (ℤ × ℤ) :=
  match c.x, c.y with
  | some x, some y => some (x, y)
  | _, _ => none

/-- The `else` branch of the merge loop: add the incoming cell's
counts onto the stored entry (`or 0` coercion on both sides), leaving
every other field of the entry as first inserted. -/
def bumpCell (c e : GridCell) : GridCell :=
  { e with observationsCount := some (obsD e + obsD c),
           taxaCount := some (taxaD e + taxaD c) }

/-- One `merged[key]` update: find the entry with this key and bump
it, or append the cell as a new entry (Python dicts preserve insertion
order, so the accumulator is an ordered association list). -/
def insertCell (k : ℤ × ℤ) (c : GridCell) : List GridCell → List GridCell
  | [] => [c]
  | e :: rest =>
    if cellKey e = some k then bumpCell c e :: rest else e :: insertCell k c rest

/-- One iteration of the merge loop body: compute the key (raising on
a missing `x`/`y`) and update the accumulator. -/
def mergeStep (acc : List GridCell) (c : GridCell) : Option (List GridCell) :=
  (cellKey c).map fun k => insertCell k c acc

/-- `sos_client._merge_geogrid_payloads(payloads)`: carry the
non-`gridCells` top-level keys of the first payload that has any, and
fold every cell of every payload into the keyed accumulator. -/
def merge_geogrid_payloads (payloads : List Payload) : Option Payload :=
  ((payloads.flatMap Payload.gridCells).foldlM mergeStep []).map fun merged =>
    { extra := payloads.foldl (fun o p => if o.isEmpty then p.extra else o) [],
      gridCells := merged }

/-- Outcome of one upstream `geogrid_aggregation` POST: success, the
HTTP-400 "number of cells … too large" error, or any other failure. -/
inductive UpstreamResult where
  | ok (p : Payload)
  | tooManyCells
  | fatal
deriving DecidableEq

/-- The recursion `_try(bb_local, depth)` of
`sos_client.geogrid_aggregation_resilient` (the second, effective
definition), abstracted over the upstream POST and re-indexed by the
remaining depth budget `fuel = max_depth - depth`, so that `fuel = 0`
is `depth >= max_depth` (re-raise) and `fuel + 1` is
`depth < max_depth` (split into the four quadrants, recurse on each at
`depth + 1`, and merge).  The wildcard row is unreachable:
`_split_bbox_4` always returns four quadrants. -/
def resilientTry (upstream : BBox → UpstreamResult) : ℕ → BBox → Option Payload
  | 0, bb =>
    match upstream bb with
    | .ok p => some p
    | _ => none
  | fuel + 1, bb =>
    match upstream bb with
    | .ok p => some p
    | .fatal => none
    | .tooManyCells =>
      match split_bbox_4 bb with
      | [q1, q2, q3, q4] => do
        let p1 ← resilientTry upstream fuel q1
        let p2 ← resilientTry upstream fuel q2
        let p3 ← resilientTry upstream fuel q3
        let p4 ← resilientTry upstream fuel q4
        merge_geogrid_payloads [p1, p2, p3, p4]
      | _ => none

/-- `sos_client.geogrid_aggregation_resilient(taxa, zoom, …,
max_depth)` on the active bbox `bb` (the caller's bbox filter, or the
default world box): `_try(bb, 0)`. -/
def geogrid_aggregation_resilient (upstream : BBox → UpstreamResult)
    (max_depth : ℕ) (bb : BBox) : Option Payload :=
  resilientTry upstream max_depth bb

/-! ## geomap/storage.py — the storage engine

Tables are lists of row structures.  The DDL primary keys are
`taxon_grid(taxon_id, zoom, slot_id, x, y)`,
`taxon_layer_state(taxon_id, zoom, slot_id)`,
`grid_hotmap(zoom, slot_id, x, y)` and
`hotmap_taxa_set(zoom, slot_id, taxon_id)` — there is no `year`
column anywhere in `storage.py`. -/

/-- A `taxon_grid` row (DDL lines 35–49; `fetched_at_utc` omitted). -/
structure TG where
  taxon_id : ℤ
  zoom : ℤ
  slot_id : ℤ
  x : ℤ
  y : ℤ
  observations_count : ℤ
  taxa_count : ℤ
  bbox_top_lat : ℚ
  bbox_left_lon : ℚ
  bbox_bottom_lat : ℚ
  bbox_right_lon : ℚ
deriving DecidableEq, Repr

/-- A `taxon_layer_state` row (`last_fetch_utc` omitted). -/
structure LayerState where
  taxon_id : ℤ
  zoom : ℤ
  slot_id : ℤ
  payload_sha256 : String
  grid_cell_count : ℤ
deriving DecidableEq, Repr

/-- A `grid_hotmap` row (`updated_at_utc` omitted).  The `score` REAL
column is the float `coverage**alpha / ((obs_total + 1.0)**beta)`
computed at insert time from the row's `coverage` and `obs_total`
aggregates; the model stores the two integer aggregates and the claims
state the score through the real-valued formula. -/
structure HotRow where
  zoom : ℤ
  slot_id : ℤ
  x : ℤ
  y : ℤ
  coverage : ℕ
  obs_total : ℤ
  bbox_top_lat : ℚ
  bbox_left_lon : ℚ
  bbox_bottom_lat : ℚ
  bbox_right_lon : ℚ
deriving DecidableEq, Repr

/-- A `hotmap_taxa_set` row. -/
structure TaxaSetRow where
  zoom : ℤ
  slot_id : ℤ
  taxon_id : ℤ
deriving DecidableEq, Repr

/-- `storage.local_from_marker(src_zoom, src_sha)`. -/
def local_from_marker (src_zoom : ℤ) (src_sha : String) : String :=
  "LOCAL_FROM_" ++ toString src_zoom ++ ":" ++ src_sha

/-- `storage.get_layer_state(conn, taxon_id, zoom, slot_id)` — the
lookup key has three components; no year is (or can be) supplied. -/
def get_layer_state (states : List LayerState) (taxon_id zoom slot_id : ℤ) :
    Option (String × ℤ) :=
  (states.find? fun r =>
      decide (r.taxon_id = taxon_id ∧ r.zoom = zoom ∧ r.slot_id = slot_id)).map
    fun r => (r.payload_sha256, r.grid_cell_count)

/-- `storage.upsert_layer_state`: `INSERT … ON CONFLICT(taxon_id,
zoom, slot_id) DO UPDATE`. -/
def upsert_layer_state (states : List LayerState) (taxon_id zoom slot_id : ℤ)
    (payload_sha256 : String) (grid_cell_count : ℤ) : List LayerState :=
  if states.any fun r =>
      decide (r.taxon_id = taxon_id ∧ r.zoom = zoom ∧ r.slot_id = slot_id) then
    states.map fun r =>
      if decide (r.taxon_id = taxon_id ∧ r.zoom = zoom ∧ r.slot_id = slot_id) then
        { r with payload_sha256 := payload_sha256, grid_cell_count := grid_cell_count }
      else r
  else states ++ [⟨taxon_id, zoom, slot_id, payload_sha256, grid_cell_count⟩]

/-- The row `replace_taxon_grid` builds from one upstream cell:
`c["x"]`/`c["y"]` and the four bbox coordinate lookups raise on a
missing key; the two counts are coerced with `or 0`. -/
def rowOfCell (taxon_id zoom slot_id : ℤ) (c : GridCell) : Option TG := do
  let x ← c.x
  let y ← c.y
  let bb := c.boundingBox.getD emptyBox
  let tl := bb.topLeft.getD emptyPoint
  let br := bb.bottomRight.getD emptyPoint
  let tlat ← tl.latitude
  let tlon ← tl.longitude
  let blat ← br.latitude
  let blon ← br.longitude
  some ⟨taxon_id, zoom, slot_id, x, y, obsD c, taxaD c, tlat, tlon, blat, blon⟩

/-- `storage.replace_taxon_grid(conn, taxon_id, zoom, slot_id,
grid_cells)`: DELETE the `(taxon_id, zoom, slot_id)` layer, then bulk
INSERT one row per cell.  The INSERT hits the `taxon_grid` primary key
`(taxon_id, zoom, slot_id, x, y)`, so duplicate `(x, y)` pairs within
`grid_cells` raise an integrity error; the surrounding transaction
rolls the whole operation back (`none`). -/
def replace_taxon_grid (db : List TG) (taxon_id zoom slot_id : ℤ)
    (grid_cells : List GridCell) : Option (List TG) :=
  (grid_cells.mapM (rowOfCell taxon_id zoom slot_id)).bind fun rows =>
    if (rows.map fun r => (r.x, r.y)).Nodup then
      some ((db.filter fun r =>
        !(decide (r.taxon_id = taxon_id ∧ r.zoom = zoom ∧ r.slot_id = slot_id))) ++ rows)
    else none

/-- `storage.materialize_parent_zoom_from_child(conn, taxon_id=…,
slot_id=…, src_zoom=…, dst_zoom=…, src_sha=…)`:

* raise `ValueError` unless `dst_zoom < src_zoom`;
* aggregate the `(taxon_id, src_zoom, slot_id)` rows by the parent key
  `(x / factor, y / factor)` with `factor = 2^(src_zoom - dst_zoom)`
  (SQLite's truncating division, `Int.tdiv`): `SUM(observations_count)`,
  `MAX(taxa_count)`, and the bbox hull
  `MAX(top), MIN(left), MIN(bottom), MAX(right)` — the `int(… or 0)`
  guards fire only on the never-`NULL`-to-nonzero aggregates and are
  the `getD 0` defaults below;
* DELETE the `(taxon_id, dst_zoom, slot_id)` layer and INSERT the
  aggregated rows;
* upsert the layer state with the `LOCAL_FROM_<src_zoom>:<src_sha>`
  marker and the inserted-row count. -/
def materialize_parent_zoom_from_child (db : List TG) (states : List LayerState)
    (taxon_id slot_id src_zoom dst_zoom : ℤ) (src_sha : String) :
    Option (List TG × List LayerState) :=
  if dst_zoom ≥ src_zoom then none
  else
    let factor : ℤ := 2 ^ (src_zoom - dst_zoom).toNat
    let children := db.filter fun r =>
      decide (r.taxon_id = taxon_id ∧ r.zoom = src_zoom ∧ r.slot_id = slot_id)
    let keys := (children.map fun r => (r.x.tdiv factor, r.y.tdiv factor)).dedup
    let out := keys.map fun k =>
      let g := children.filter fun r =>
        decide (r.x.tdiv factor = k.1 ∧ r.y.tdiv factor = k.2)
      { taxon_id := taxon_id, zoom := dst_zoom, slot_id := slot_id,
        x := k.1, y := k.2,
        observations_count := (g.map TG.observations_count).sum,
        taxa_count := ((g.map TG.taxa_count).max?).getD 0,
        bbox_top_lat := ((g.map TG.bbox_top_lat).max?).getD 0,
        bbox_left_lon := ((g.map TG.bbox_left_lon).min?).getD 0,
        bbox_bottom_lat := ((g.map TG.bbox_bottom_lat).min?).getD 0,
        bbox_right_lon := ((g.map TG.bbox_right_lon).max?).getD 0 : TG }
    let db' := (db.filter fun r =>
      !(decide (r.taxon_id = taxon_id ∧ r.zoom = dst_zoom ∧ r.slot_id = slot_id))) ++ out
    some (db', upsert_layer_state states taxon_id dst_zoom slot_id
      (local_from_marker src_zoom src_sha) out.length)

/-- `storage.rebuild_hotmap(conn, zoom, slot_id, taxon_ids, alpha=…,
beta=…)`:

* `if not taxon_ids: return` — no statement executes;
* DELETE the `(zoom, slot_id)` hotmap rows and `hotmap_taxa_set` rows;
* `INSERT OR IGNORE` one taxa-set row per requested id (a repeated id
  hits the primary key and is ignored);
* regroup `taxon_grid` rows with `zoom = zoom`, `slot_id = slot_id`
  and `taxon_id IN taxon_ids` by `(x, y)`:
  `coverage = COUNT(DISTINCT taxon_id)`,
  `obs_total = SUM(observations_count)` (the `or 0` guard fires only
  on a zero sum and is the identity), and the bare bbox columns take
  an unspecified representative row of the group — the model takes the
  first;
* INSERT the aggregates (`score` is read off the stored pair through
  the real-valued formula, see `HotRow`). -/
def rebuild_hotmap (grid : List TG) (hot : List HotRow) (tset : List TaxaSetRow)
    (zoom slot_id : ℤ) (taxon_ids : List ℤ) : List HotRow × List TaxaSetRow :=
  if taxon_ids = [] then (hot, tset)
  else
    let hot' := hot.filter fun r => !(decide (r.zoom = zoom ∧ r.slot_id = slot_id))
    let tset₀ := tset.filter fun r => !(decide (r.zoom = zoom ∧ r.slot_id = slot_id))
    let tset' := taxon_ids.foldl
      (fun acc tid =>
        if acc.any fun r =>
            decide (r.zoom = zoom ∧ r.slot_id = slot_id ∧ r.taxon_id = tid) then acc
        else acc ++ [⟨zoom, slot_id, tid⟩]) tset₀
    let sel := grid.filter fun r =>
      decide (r.zoom = zoom ∧ r.slot_id = slot_id ∧ r.taxon_id ∈ taxon_ids)
    let keys := (sel.map fun r => (r.x, r.y)).dedup
    let newRows := keys.map fun k =>
      let g := sel.filter fun r => decide (r.x = k.1 ∧ r.y = k.2)
      { zoom := zoom, slot_id := slot_id, x := k.1, y := k.2,
        coverage := ((g.map TG.taxon_id).dedup).length,
        obs_total := (g.map TG.observations_count).sum,
        bbox_top_lat := ((g.head?).map TG.bbox_top_lat).getD 0,
        bbox_left_lon := ((g.head?).map TG.bbox_left_lon).getD 0,
        bbox_bottom_lat := ((g.head?).map TG.bbox_bottom_lat).getD 0,
        bbox_right_lon := ((g.head?).map TG.bbox_right_lon).getD 0 : HotRow }
    (hot' ++ newRows, tset')

/-! ## General list helpers -/

/-- Two duplicate-free lists with the same members have the same
length. -/
theorem length_eq_of_nodup_of_mem_iff {α : Type} [DecidableEq α] {l₁ l₂ : List α}
    (h₁ : l₁.Nodup) (h₂ : l₂.Nodup) (h : ∀ a, a ∈ l₁ ↔ a ∈ l₂) :
    l₁.length = l₂.length := by
  have hfin : l₁.toFinset = l₂.toFinset := by
    ext a
    simp only [List.mem_toFinset]
    exact h a
  have c₁ := List.card_toFinset l₁
  have c₂ := List.card_toFinset l₂
  rw [h₁.dedup] at c₁
  rw [h₂.dedup] at c₂
  rw [← c₁, ← c₂, hfin]

/-- Success of `mapM` over `Option` means pointwise success. -/
theorem mapM_some_forall₂ {α β : Type} {f : α → Option β} :
    ∀ {l : List α} {l' : List β}, l.mapM f = some l' →
      List.Forall₂ (fun a b => f a = some b) l l' := by
  intro l
  induction l with
  | nil => intro l' h; simp only [List.mapM_nil, pure, Option.some.injEq] at h; subst h; exact .nil
  | cons a t ih =>
    intro l' h
    rw [List.mapM_cons] at h
    cases hfa : f a with
    | none => rw [hfa] at h; simp at h
    | some b =>
      rw [hfa] at h
      cases hr : t.mapM f with
      | none => rw [hr] at h; simp at h
      | some rest =>
        rw [hr] at h
        simp only [Option.bind_eq_bind, Option.some_bind, pure, Option.some.injEq] at h
        subst h
        exact .cons hfa (ih hr)

/-- Every member of the right list of a `Forall₂` is related to a
member of the left list. -/
theorem forall₂_mem_right {α β : Type} {R : α → β → Prop} :
    ∀ {l : List α} {l' : List β}, List.Forall₂ R l l' → ∀ b ∈ l', ∃ a ∈ l, R a b := by
  intro l l' h
  induction h with
  | nil => intro b hb; cases hb
  | cons hab _ ih =>
    intro b hb
    rcases List.mem_cons.mp hb with rfl | hb'
    · exact ⟨_, List.mem_cons_self _ _, hab⟩
    · obtain ⟨a, ha, hr⟩ := ih b hb'
      exact ⟨a, List.mem_cons_of_mem _ ha, hr⟩

/-! ## Claim C8 — `slot_bounds(2, 4, year)` and February -/

/-- **C8.** For every valid calendar year `y` (the range accepted by
`calendar.monthrange`), `slot_bounds(2, 4, year_for_days=y)` returns
the Feb/q4 slot with `start_day = 22` and `end_day = 29` in a leap
year, `28` otherwise. -/
theorem slot_bounds_feb_q4 (y : ℤ) (hy₁ : 1 ≤ y) (hy₂ : y ≤ 9999) :
    slot_bounds 2 4 y = some ⟨8, 2, 4, 22, if isleap y then 29 else 28⟩ := by
  have hm : monthrange_days y 2 = some (if isleap y then 29 else 28) := by
    rw [monthrange_days]
    rw [if_neg (by norm_num), if_neg (by omega)]
    cases h : isleap y <;> simp [mdays, h]
  rw [slot_bounds]
  rw [if_neg (by norm_num), if_neg (by norm_num), hm]
  norm_num

/-- Witness for C8 at the leap year 2024. -/
theorem slot_bounds_feb_q4_witness :
    slot_bounds 2 4 2024 = some ⟨8, 2, 4, 22, 29⟩ := by
  have h := slot_bounds_feb_q4 2024 (by decide) (by decide)
  rw [h]
  rfl

/-! ## Claim C9 — `rebuild_hotmap` with an empty taxa list -/

/-- **C9.** `rebuild_hotmap` called with an empty active-taxa list
returns before executing any statement: the `grid_hotmap` and
`hotmap_taxa_set` tables — including the previous hotmap rows for the
same `(zoom, slot_id)` — are returned unchanged. -/
theorem rebuild_hotmap_empty_taxa (grid : List TG) (hot : List HotRow)
    (tset : List TaxaSetRow) (zoom slot_id : ℤ) :
    rebuild_hotmap grid hot tset zoom slot_id [] = (hot, tset) := rfl

/-! ## Claim C10 — year-range request parsing -/

/-- **C10.** `parse_year_range_args` normalizes well-formed integer
year arguments: absent/absent gives the all-years bucket `(0, 0)`; a
single present argument is used for both ends; an explicit `0` on
either end collapses to `(0, 0)`; a reversed pair is swapped; and
every successful result is ordered. -/
theorem parse_year_range_args_normalizes (year_min year_max : ℤ) :
    (parse_year_range_args year_min year_max none none = some (0, 0)) ∧
    (∀ v vi : ℤ, parse_year year_min year_max v = some vi →
      parse_year_range_args year_min year_max (some v) none = some (vi, vi) ∧
      parse_year_range_args year_min year_max none (some v) = some (vi, vi)) ∧
    (∀ f t fi ti : ℤ, parse_year year_min year_max f = some fi →
      parse_year year_min year_max t = some ti →
      ((fi = 0 ∨ ti = 0) →
        parse_year_range_args year_min year_max (some f) (some t) = some (0, 0)) ∧
      (fi ≠ 0 → ti ≠ 0 → fi > ti →
        parse_year_range_args year_min year_max (some f) (some t) = some (ti, fi))) ∧
    (∀ yf yt : Option ℤ, ∀ p : ℤ × ℤ,
      parse_year_range_args year_min year_max yf yt = some p → p.1 ≤ p.2) := by
  have hnorm : ∀ fi ti : ℤ,
      (parse_year_range_args.normPair fi ti).1 ≤
        (parse_year_range_args.normPair fi ti).2 := by
    intro fi ti
    rw [parse_year_range_args.normPair]
    split
    · norm_num
    · split <;> simp <;> omega
  refine ⟨rfl, ?_, ?_, ?_⟩
  · intro v vi hv
    constructor <;>
    · rw [parse_year_range_args, hv]
      simp only [Option.some_bind, Option.map_some']
      rw [parse_year_range_args.normPair]
      rcases eq_or_ne vi 0 with rfl | hne
      · simp [YEAR_ALL]
      · rw [if_neg (by simp [YEAR_ALL, hne]), if_neg (by omega)]
  · intro f t fi ti hf ht
    constructor
    · intro h0
      rw [parse_year_range_args, hf, ht]
      simp only [Option.some_bind, Option.map_some']
      rw [parse_year_range_args.normPair, if_pos (by simpa [YEAR_ALL] using h0)]
      rfl
    · intro hf0 ht0 hgt
      rw [parse_year_range_args, hf, ht]
      simp only [Option.some_bind, Option.map_some']
      rw [parse_year_range_args.normPair,
        if_neg (by simp [YEAR_ALL, hf0, ht0]), if_pos hgt]
  · intro yf yt p hp
    match yf, yt with
    | none, none =>
      rw [parse_year_range_args] at hp
      cases hp
      norm_num
    | some yf, none =>
      rw [parse_year_range_args] at hp
      cases hv : parse_year year_min year_max yf with
      | none => rw [hv] at hp; cases hp
      | some vi =>
        rw [hv] at hp
        simp only [Option.some_bind, Option.map_some', Option.some.injEq] at hp
        rw [← hp]
        exact hnorm vi vi
    | none, some yt =>
      rw [parse_year_range_args] at hp
      cases hv : parse_year year_min year_max yt with
      | none => rw [hv] at hp; cases hp
      | some vi =>
        rw [hv] at hp
        simp only [Option.some_bind, Option.map_some', Option.some.injEq] at hp
        rw [← hp]
        exact hnorm vi vi
    | some yf, some yt =>
      rw [parse_year_range_args] at hp
      cases hf : parse_year year_min year_max yf with
      | none => rw [hf] at hp; cases hp
      | some fi =>
        cases ht : parse_year year_min year_max yt with
        | none => rw [hf, ht] at hp; simp at hp
        | some ti =>
          rw [hf, ht] at hp
          simp only [Option.some_bind, Option.map_some', Option.some.injEq] at hp
          rw [← hp]
          exact hnorm fi ti

/-- Witness for C10: reversed in-range pair `(2024, 2001)` is parsed,
swapped, and ordered. -/
theorem parse_year_range_args_normalizes_witness :
    parse_year_range_args 1900 2100 (some 2024) (some 2001) = some (2001, 2024) :=
  ((parse_year_range_args_normalizes 1900 2100).2.2.1 2024 2001 2024 2001
    (by decide) (by decide)).2 (by decide) (by decide) (by decide)

/-! ## Claim C2 — the storage key has no year component

The claim (and `server/app.py`, which imports `YEAR_ALL`/`YEAR_MIN`/
`YEAR_MAX` from `geomap.storage` and passes a `year` argument to every
storage call) requires TaxonGrid to be keyed by
`(taxon_id, zoom, year, slot_id, x, y_tile)`.  The DDL's primary key
is `(taxon_id, zoom, slot_id, x, y)` and no storage operation takes a
year.  The theorem below evaluates the code at the collision the
missing component causes: writing what the pipeline intends as the
same layer for two different years is a single-key overwrite — the
first layer's rows are gone, so the store cannot hold, let alone
distinguish, two rows differing only in year. -/

/-- **C2.** Two `replace_taxon_grid` writes for the same
`(taxon_id, zoom, slot_id)` — which the build pipeline issues for two
*different years* of the same layer — address the same storage key:
the second write erases the first write's rows entirely. -/
theorem taxon_grid_layer_key_has_no_year :
    (replace_taxon_grid [] 1 15 3
        [⟨some 0, some 0, some 15, some 10, some 1,
          some ⟨some ⟨some 1, some 2, []⟩, some ⟨some 3, some 4, []⟩, []⟩, []⟩] =
      some [⟨1, 15, 3, 0, 0, 10, 1, 1, 2, 3, 4⟩]) ∧
    ((replace_taxon_grid [] 1 15 3
        [⟨some 0, some 0, some 15, some 10, some 1,
          some ⟨some ⟨some 1, some 2, []⟩, some ⟨some 3, some 4, []⟩, []⟩, []⟩]).bind
      fun db₁ => replace_taxon_grid db₁ 1 15 3
        [⟨some 7, some 9, some 15, some 5, some 1,
          some ⟨some ⟨some 5, some 6, []⟩, some ⟨some 7, some 8, []⟩, []⟩, []⟩]) =
      some [⟨1, 15, 3, 7, 9, 5, 1, 5, 6, 7, 8⟩] :=
  ⟨rfl, rfl⟩

/-! ## `materialize_parent_zoom_from_child` — characterization -/

/-- The children of parent tile `(px, py)`: the `(taxon_id, src_zoom,
slot_id)` rows whose truncated coordinate quotients hit the parent
key (the claim's «rows aggregated into that parent tile»). -/
def childrenOf (db : List TG) (taxon_id slot_id src_zoom factor px py : ℤ) : List TG :=
  (db.filter fun r =>
    decide (r.taxon_id = taxon_id ∧ r.zoom = src_zoom ∧ r.slot_id = slot_id)).filter
    fun r => decide (r.x.tdiv factor = px ∧ r.y.tdiv factor = py)

/-- Full characterization of a successful
`materialize_parent_zoom_from_child` run, shared by the claims about
it: destination layer replaced by one aggregate row per non-empty
parent tile, and the layer state stamped with the `LOCAL_FROM` marker
and the inserted-row count. -/
theorem materialize_spec (db : List TG) (states : List LayerState)
    (taxon_id slot_id src_zoom dst_zoom : ℤ) (src_sha : String)
    (h : dst_zoom < src_zoom) :
    ∃ out : List TG,
      materialize_parent_zoom_from_child db states taxon_id slot_id src_zoom dst_zoom src_sha =
        some ((db.filter fun r =>
            !(decide (r.taxon_id = taxon_id ∧ r.zoom = dst_zoom ∧ r.slot_id = slot_id))) ++ out,
          upsert_layer_state states taxon_id dst_zoom slot_id
            (local_from_marker src_zoom src_sha) out.length) ∧
      (∀ r ∈ out, r.taxon_id = taxon_id ∧ r.zoom = dst_zoom ∧ r.slot_id = slot_id) ∧
      ((out.map fun r => (r.x, r.y)).Nodup) ∧
      (∀ px py : ℤ,
        ((px, py) ∈ out.map fun r => (r.x, r.y)) ↔
          ∃ c ∈ db, c.taxon_id = taxon_id ∧ c.zoom = src_zoom ∧ c.slot_id = slot_id ∧
            c.x.tdiv (2 ^ (src_zoom - dst_zoom).toNat) = px ∧
            c.y.tdiv (2 ^ (src_zoom - dst_zoom).toNat) = py) ∧
      (∀ r ∈ out,
        let g := childrenOf db taxon_id slot_id src_zoom (2 ^ (src_zoom - dst_zoom).toNat) r.x r.y
        r.observations_count = (g.map TG.observations_count).sum ∧
        r.taxa_count = ((g.map TG.taxa_count).max?).getD 0 ∧
        r.bbox_top_lat = ((g.map TG.bbox_top_lat).max?).getD 0 ∧
        r.bbox_left_lon = ((g.map TG.bbox_left_lon).min?).getD 0 ∧
        r.bbox_bottom_lat = ((g.map TG.bbox_bottom_lat).min?).getD 0 ∧
        r.bbox_right_lon = ((g.map TG.bbox_right_lon).max?).getD 0) := by
  rw [materialize_parent_zoom_from_child, if_neg (by omega)]
  set factor : ℤ := 2 ^ (src_zoom - dst_zoom).toNat with hfactor
  set children := db.filter fun r =>
    decide (r.taxon_id = taxon_id ∧ r.zoom = src_zoom ∧ r.slot_id = slot_id) with hchildren
  set keys := (children.map fun r => (r.x.tdiv factor, r.y.tdiv factor)).dedup with hkeys
  refine ⟨_, rfl, ?_, ?_, ?_, ?_⟩
  · intro r hr
    obtain ⟨k, _, rfl⟩ := List.mem_map.mp hr
    exact ⟨rfl, rfl, rfl⟩
  · rw [List.map_map]
    exact List.Nodup.map_on (fun x _ y _ hxy => hxy) (List.nodup_dedup _)
  · intro px py
    rw [List.map_map]
    constructor
    · intro hmem
      obtain ⟨k, hk, hkey⟩ := List.mem_map.mp hmem
      obtain ⟨c, hc, hck⟩ := List.mem_map.mp (List.mem_dedup.mp hk)
      have hcf := List.mem_filter.mp
        (show c ∈ db.filter (fun r =>
          decide (r.taxon_id = taxon_id ∧ r.zoom = src_zoom ∧ r.slot_id = slot_id)) from hc)
      have hcc := of_decide_eq_true hcf.2
      refine ⟨c, hcf.1, ?_⟩
      have h1 : (c.x.tdiv factor, c.y.tdiv factor) = (px, py) := by
        rw [hck]; exact hkey
      exact ⟨hcc.1, hcc.2.1, hcc.2.2, congrArg Prod.fst h1, congrArg Prod.snd h1⟩
    · rintro ⟨c, hc, ht, hz, hs, hx, hy⟩
      refine List.mem_map.mpr ⟨(px, py), ?_, rfl⟩
      refine List.mem_dedup.mpr (List.mem_map.mpr ⟨c, ?_, by rw [hx, hy]⟩)
      exact List.mem_filter.mpr ⟨hc, decide_eq_true ⟨ht, hz, hs⟩⟩
  · intro r hr
    obtain ⟨k, hk, rfl⟩ := List.mem_map.mp hr
    exact ⟨rfl, rfl, rfl, rfl, rfl, rfl⟩

/-- Reading back the layer state right after an upsert returns the
upserted hash and count (the three-component key is hit whether the
row existed or not). -/
theorem get_layer_state_upsert (states : List LayerState) (t z s : ℤ)
    (sha : String) (cnt : ℤ) :
    get_layer_state (upsert_layer_state states t z s sha cnt) t z s = some (sha, cnt) := by
  induction states with
  | nil =>
    simp [get_layer_state, upsert_layer_state, List.find?]
  | cons r rest ih =>
    by_cases hp : r.taxon_id = t ∧ r.zoom = z ∧ r.slot_id = s
    · rw [upsert_layer_state,
        if_pos (by rw [List.any_cons, decide_eq_true hp, Bool.true_or])]
      rw [get_layer_state]
      rw [List.map_cons, List.find?_cons_of_pos _ (by simp [hp])]
      simp [hp]
    · rw [upsert_layer_state]
      by_cases hany : (rest.any fun q =>
          decide (q.taxon_id = t ∧ q.zoom = z ∧ q.slot_id = s)) = true
      · rw [if_pos (by rw [List.any_cons, hany, Bool.or_true])]
        rw [get_layer_state, List.map_cons,
          if_neg (by simp only [decide_eq_true_eq]; exact hp),
          List.find?_cons_of_neg _ (by simp [hp])]
        have ih' := ih
        rw [upsert_layer_state, if_pos hany] at ih'
        rw [get_layer_state] at ih'
        exact ih'
      · rw [if_neg (by rw [List.any_cons, decide_eq_false hp, Bool.false_or]; exact hany)]
        rw [get_layer_state, List.cons_append,
          List.find?_cons_of_neg _ (by simp [hp])]
        have ih' := ih
        rw [upsert_layer_state, if_neg hany] at ih'
        rw [get_layer_state] at ih'
        exact ih'

/-- Filtering with a predicate right after keeping its complement
yields nothing. -/
theorem filter_not_filter {α : Type} (p : α → Bool) (l : List α) :
    (l.filter fun a => !(p a)).filter p = [] := by
  rw [List.filter_filter]
  have : (fun a => p a && !p a) = fun _ => false := by
    funext a; cases p a <;> rfl
  rw [this, List.filter_false]

/-! ## Claim C3 — parent-zoom materialization -/

/-- **C3.** `materialize_parent_zoom_from_child` raises unless
`dst_zoom < src_zoom`; on success it replaces the destination layer
with exactly one row per parent tile `(x tdiv 2^(src-dst),
y tdiv 2^(src-dst))` that has at least one child, aggregating
`observations_count` as the sum and `taxa_count` as the max of the
children, and writes the `LOCAL_FROM_<src_zoom>:<src_sha>` layer-state
marker with `grid_cell_count` equal to the number of inserted rows. -/
theorem materialize_parent_zoom_correct (db : List TG) (states : List LayerState)
    (taxon_id slot_id src_zoom dst_zoom : ℤ) (src_sha : String) :
    (src_zoom ≤ dst_zoom →
      materialize_parent_zoom_from_child db states taxon_id slot_id src_zoom dst_zoom src_sha
        = none) ∧
    (dst_zoom < src_zoom →
      ∃ db' states',
        materialize_parent_zoom_from_child db states taxon_id slot_id src_zoom dst_zoom src_sha
          = some (db', states') ∧
        (∀ r ∈ db,
          ¬ (r.taxon_id = taxon_id ∧ r.zoom = dst_zoom ∧ r.slot_id = slot_id) → r ∈ db') ∧
        ((db'.filter fun r =>
            decide (r.taxon_id = taxon_id ∧ r.zoom = dst_zoom ∧ r.slot_id = slot_id)).map
              fun r => (r.x, r.y)).Nodup ∧
        (∀ px py : ℤ,
          (∃ r ∈ db', r.taxon_id = taxon_id ∧ r.zoom = dst_zoom ∧ r.slot_id = slot_id ∧
              r.x = px ∧ r.y = py) ↔
          ∃ c ∈ db, c.taxon_id = taxon_id ∧ c.zoom = src_zoom ∧ c.slot_id = slot_id ∧
            c.x.tdiv (2 ^ (src_zoom - dst_zoom).toNat) = px ∧
            c.y.tdiv (2 ^ (src_zoom - dst_zoom).toNat) = py) ∧
        (∀ r ∈ db', r.taxon_id = taxon_id → r.zoom = dst_zoom → r.slot_id = slot_id →
          r.observations_count =
            ((childrenOf db taxon_id slot_id src_zoom (2 ^ (src_zoom - dst_zoom).toNat)
              r.x r.y).map TG.observations_count).sum ∧
          r.taxa_count =
            (((childrenOf db taxon_id slot_id src_zoom (2 ^ (src_zoom - dst_zoom).toNat)
              r.x r.y).map TG.taxa_count).max?).getD 0) ∧
        get_layer_state states' taxon_id dst_zoom slot_id =
          some (local_from_marker src_zoom src_sha,
            ((db'.filter fun r =>
              decide (r.taxon_id = taxon_id ∧ r.zoom = dst_zoom ∧ r.slot_id = slot_id)).length : ℤ))) := by
  constructor
  · intro hle
    rw [materialize_parent_zoom_from_child, if_pos (by omega)]
  · intro hlt
    obtain ⟨out, heq, hdst, hnodup, hkey, hagg⟩ :=
      materialize_spec db states taxon_id slot_id src_zoom dst_zoom src_sha hlt
    set dstP : TG → Bool := fun r =>
      decide (r.taxon_id = taxon_id ∧ r.zoom = dst_zoom ∧ r.slot_id = slot_id) with hdstP
    have hfilter :
        ((db.filter fun r => !(dstP r)) ++ out).filter dstP = out := by
      rw [List.filter_append, filter_not_filter, List.nil_append]
      exact List.filter_eq_self.mpr fun r hr => by
        have h3 := hdst r hr
        exact decide_eq_true ⟨h3.1, h3.2.1, h3.2.2⟩
    refine ⟨_, _, heq, ?_, ?_, ?_, ?_, ?_⟩
    · intro r hr hnot
      exact List.mem_append_left _ (List.mem_filter.mpr ⟨hr, by simp [hdstP, hnot]⟩)
    · rw [hfilter]
      exact hnodup
    · intro px py
      rw [← hkey px py]
      constructor
      · rintro ⟨r, hr, h1, h2, h3, rfl, rfl⟩
        rcases List.mem_append.mp hr with hl | hinz
        · have hneg := (List.mem_filter.mp hl).2
          simp [hdstP, h1, h2, h3] at hneg
        · exact List.mem_map.mpr ⟨r, hinz, rfl⟩
      · intro hmem
        obtain ⟨r, hrout, hxy⟩ := List.mem_map.mp hmem
        obtain ⟨h1, h2, h3⟩ := hdst r hrout
        exact ⟨r, List.mem_append_right _ hrout, h1, h2, h3,
          congrArg Prod.fst hxy, congrArg Prod.snd hxy⟩
    · intro r hr h1 h2 h3
      rcases List.mem_append.mp hr with hl | hinz
      · have hneg := (List.mem_filter.mp hl).2
        simp [hdstP, h1, h2, h3] at hneg
      · exact ⟨(hagg r hinz).1, (hagg r hinz).2.1⟩
    · rw [hfilter]
      exact get_layer_state_upsert states taxon_id dst_zoom slot_id _ _

/-- Witness for C3 (the spec's derived-zoom scenario): children
`(34000, 19000)` with 10 observations and `(34001, 19000)` with 5, for
taxon 42, slot 0, zoom 15, derived to zoom 14; and the rejection of
`dst_zoom = src_zoom`. -/
theorem materialize_parent_zoom_correct_witness :
    (materialize_parent_zoom_from_child
      [⟨42, 15, 0, 34000, 19000, 10, 1, 1, 2, 3, 4⟩,
       ⟨42, 15, 0, 34001, 19000, 5, 1, 1, 2, 3, 4⟩] [] 42 0 15 15 "abc" = none) ∧
    (∃ db' states',
      materialize_parent_zoom_from_child
        [⟨42, 15, 0, 34000, 19000, 10, 1, 1, 2, 3, 4⟩,
         ⟨42, 15, 0, 34001, 19000, 5, 1, 1, 2, 3, 4⟩] [] 42 0 15 14 "abc"
        = some (db', states') ∧
      (∃ r ∈ db', r.taxon_id = 42 ∧ r.zoom = 14 ∧ r.slot_id = 0 ∧
        r.x = 17000 ∧ r.y = 9500) ∧
      get_layer_state states' 42 14 0 = some ("LOCAL_FROM_15:abc",
        ((db'.filter fun r =>
          decide (r.taxon_id = 42 ∧ r.zoom = 14 ∧ r.slot_id = 0)).length : ℤ))) := by
  have h := materialize_parent_zoom_correct
    [⟨42, 15, 0, 34000, 19000, 10, 1, 1, 2, 3, 4⟩,
     ⟨42, 15, 0, 34001, 19000, 5, 1, 1, 2, 3, 4⟩] [] 42 0 15 15 "abc"
  have h2 := materialize_parent_zoom_correct
    [⟨42, 15, 0, 34000, 19000, 10, 1, 1, 2, 3, 4⟩,
     ⟨42, 15, 0, 34001, 19000, 5, 1, 1, 2, 3, 4⟩] [] 42 0 15 14 "abc"
  refine ⟨h.1 (by decide), ?_⟩
  obtain ⟨db', states', heq, _, _, hkey, _, hstate⟩ := h2.2 (by decide)
  refine ⟨db', states', heq, ?_, ?_⟩
  · exact (hkey 17000 9500).mpr
      ⟨⟨42, 15, 0, 34000, 19000, 10, 1, 1, 2, 3, 4⟩, by decide, by decide,
        by decide, by decide, by decide, by decide⟩
  · have hm : local_from_marker 15 "abc" = "LOCAL_FROM_15:abc" := by decide
    rw [← hm]
    exact hstate

/-- Decomposition of a successful `replace_taxon_grid` run. -/
theorem replace_spec {db : List TG} {t z s : ℤ} {cells : List GridCell} {db' : List TG}
    (h : replace_taxon_grid db t z s cells = some db') :
    ∃ rows : List TG, cells.mapM (rowOfCell t z s) = some rows ∧
      db' = (db.filter fun r =>
        !(decide (r.taxon_id = t ∧ r.zoom = z ∧ r.slot_id = s))) ++ rows := by
  rw [replace_taxon_grid] at h
  cases hm : cells.mapM (rowOfCell t z s) with
  | none => rw [hm] at h; simp at h
  | some rows =>
    rw [hm] at h
    simp only [Option.some_bind] at h
    split at h
    · exact ⟨rows, rfl, (Option.some.injEq _ _ ▸ h :).symm⟩
    · simp at h

/-- The fields of a row built by `replace_taxon_grid` from one cell:
the key comes from the call, `x`/`y` and the four bbox corners are the
cell's own values, and the counts are the `or 0` coercions. -/
theorem rowOfCell_fields {t z s : ℤ} {c : GridCell} {r : TG}
    (h : rowOfCell t z s c = some r) :
    r.taxon_id = t ∧ r.zoom = z ∧ r.slot_id = s ∧
    c.x = some r.x ∧ c.y = some r.y ∧
    r.observations_count = obsD c ∧ r.taxa_count = taxaD c ∧
    ((c.boundingBox.getD emptyBox).topLeft.getD emptyPoint).latitude = some r.bbox_top_lat ∧
    ((c.boundingBox.getD emptyBox).topLeft.getD emptyPoint).longitude = some r.bbox_left_lon ∧
    ((c.boundingBox.getD emptyBox).bottomRight.getD emptyPoint).latitude = some r.bbox_bottom_lat ∧
    ((c.boundingBox.getD emptyBox).bottomRight.getD emptyPoint).longitude = some r.bbox_right_lon := by
  simp only [rowOfCell, Option.bind_eq_bind, Option.bind_eq_some, Option.some.injEq] at h
  obtain ⟨x, hx, y, hy, tlat, htlat, tlon, htlon, blat, hblat, blon, hblon, rfl⟩ := h
  exact ⟨rfl, rfl, rfl, hx, hy, rfl, rfl, htlat, htlon, hblat, hblon⟩

/-! ## Claim C4 — rows written by ingest and by derivation -/

/-- **C4 counterexample.**  The claim «every row written by
`replace_taxon_grid` or `materialize_parent_zoom_from_child` has
`observations_count ≥ 0` and a bbox equal to the slippy-tile bbox of
its `(zoom, x, y)` within `1e-6`» fails at a concrete input: deriving
zoom 0 from a single zoom-1 child row that carries `-5` observations
and the child's own (zoom-1) bbox produces a zoom-0 row with
`observations_count = -5 < 0` whose stored `right_lon = 0` is `180`
degrees away from the slippy right edge of tile `(0, 0, 0)` — the hull
of the present children, not the destination slippy bbox. -/
theorem written_rows_claim_refuted :
    ∃ states' : List LayerState,
      materialize_parent_zoom_from_child
        [⟨1, 1, 0, 0, 0, -5, 1, 1, -180, 0, 0⟩] [] 1 0 1 0 "h" =
        some ([⟨1, 1, 0, 0, 0, -5, 1, 1, -180, 0, 0⟩,
               ⟨1, 0, 0, 0, 0, -5, 1, 1, -180, 0, 0⟩], states') ∧
      ¬ (0 ≤ (⟨1, 0, 0, 0, 0, -5, 1, 1, -180, 0, 0⟩ : TG).observations_count) ∧
      ¬ bbox_matches_slippy 0 0 0 1 (-180) 0 0 := by
  refine ⟨_, rfl, by decide, ?_⟩
  rintro ⟨lT, lB, _, _, _, _, _, hright⟩
  have h180 : (tile_lon 0 (0 + 1) : ℚ) = 180 := by norm_num [tile_lon]
  rw [h180] at hright
  norm_num at hright

/-- **C4 (amended).**  Rows written by `replace_taxon_grid` carry the
cell's own `x`, `y` and boundingBox corners verbatim and
`observations_count = int(cell.observationsCount or 0)` — hence
non-negative whenever the cells' coerced counts are; rows written by
`materialize_parent_zoom_from_child` carry the sum of their children's
`observations_count` — non-negative whenever the children's are — and
the componentwise hull (max top, min left, min bottom, max right) of
the children's stored bboxes, not the destination slippy bbox. -/
theorem taxon_grid_written_rows (db : List TG) (t z s : ℤ) (cells : List GridCell)
    (db' : List TG)
    (hrep : replace_taxon_grid db t z s cells = some db')
    (hcells : ∀ c ∈ cells, 0 ≤ obsD c)
    (db₂ : List TG) (states₂ : List LayerState) (t₂ s₂ zs₂ zd₂ : ℤ) (sha₂ : String)
    (g₂ : List TG) (st₂ : List LayerState)
    (hlt : zd₂ < zs₂)
    (hmat : materialize_parent_zoom_from_child db₂ states₂ t₂ s₂ zs₂ zd₂ sha₂ =
      some (g₂, st₂))
    (hchild : ∀ c ∈ db₂, c.taxon_id = t₂ → c.zoom = zs₂ → c.slot_id = s₂ →
      0 ≤ c.observations_count) :
    (∀ r ∈ db', r.taxon_id = t → r.zoom = z → r.slot_id = s →
      0 ≤ r.observations_count ∧
      ∃ c ∈ cells, c.x = some r.x ∧ c.y = some r.y ∧
        r.observations_count = obsD c ∧
        ((c.boundingBox.getD emptyBox).topLeft.getD emptyPoint).latitude =
          some r.bbox_top_lat ∧
        ((c.boundingBox.getD emptyBox).topLeft.getD emptyPoint).longitude =
          some r.bbox_left_lon ∧
        ((c.boundingBox.getD emptyBox).bottomRight.getD emptyPoint).latitude =
          some r.bbox_bottom_lat ∧
        ((c.boundingBox.getD emptyBox).bottomRight.getD emptyPoint).longitude =
          some r.bbox_right_lon) ∧
    (∀ r ∈ g₂, r.taxon_id = t₂ → r.zoom = zd₂ → r.slot_id = s₂ →
      0 ≤ r.observations_count ∧
      r.observations_count =
        ((childrenOf db₂ t₂ s₂ zs₂ (2 ^ (zs₂ - zd₂).toNat) r.x r.y).map
          TG.observations_count).sum ∧
      r.bbox_top_lat = (((childrenOf db₂ t₂ s₂ zs₂ (2 ^ (zs₂ - zd₂).toNat) r.x r.y).map
        TG.bbox_top_lat).max?).getD 0 ∧
      r.bbox_left_lon = (((childrenOf db₂ t₂ s₂ zs₂ (2 ^ (zs₂ - zd₂).toNat) r.x r.y).map
        TG.bbox_left_lon).min?).getD 0 ∧
      r.bbox_bottom_lat = (((childrenOf db₂ t₂ s₂ zs₂ (2 ^ (zs₂ - zd₂).toNat) r.x r.y).map
        TG.bbox_bottom_lat).min?).getD 0 ∧
      r.bbox_right_lon = (((childrenOf db₂ t₂ s₂ zs₂ (2 ^ (zs₂ - zd₂).toNat) r.x r.y).map
        TG.bbox_right_lon).max?).getD 0) := by
  constructor
  · obtain ⟨rows, hmapm, rfl⟩ := replace_spec hrep
    intro r hr h1 h2 h3
    rcases List.mem_append.mp hr with hl | hrows
    · have hneg := (List.mem_filter.mp hl).2
      simp [h1, h2, h3] at hneg
    · obtain ⟨c, hc, hrc⟩ := forall₂_mem_right (mapM_some_forall₂ hmapm) r hrows
      obtain ⟨_, _, _, hx, hy, hobs, _, htlat, htlon, hblat, hblon⟩ := rowOfCell_fields hrc
      exact ⟨hobs ▸ hcells c hc, c, hc, hx, hy, hobs, htlat, htlon, hblat, hblon⟩
  · obtain ⟨out, heq, hdst, _, _, hagg⟩ :=
      materialize_spec db₂ states₂ t₂ s₂ zs₂ zd₂ sha₂ hlt
    rw [heq] at hmat
    have hg : g₂ = (db₂.filter fun r =>
        !(decide (r.taxon_id = t₂ ∧ r.zoom = zd₂ ∧ r.slot_id = s₂))) ++ out := by
      have := (Option.some.injEq _ _ ▸ hmat :)
      exact (congrArg Prod.fst this).symm
    subst hg
    intro r hr h1 h2 h3
    rcases List.mem_append.mp hr with hl | hout
    · have hneg := (List.mem_filter.mp hl).2
      simp [h1, h2, h3] at hneg
    · obtain ⟨hobs, htaxa, htop, hleft, hbot, hright⟩ := hagg r hout
      refine ⟨?_, hobs, htop, hleft, hbot, hright⟩
      rw [hobs]
      apply List.sum_nonneg
      intro v hv
      obtain ⟨cr, hcr, rfl⟩ := List.mem_map.mp hv
      have hcr1 := List.mem_filter.mp hcr
      have hcr2 := List.mem_filter.mp hcr1.1
      have hk := of_decide_eq_true hcr2.2
      exact hchild cr hcr2.1 hk.1 hk.2.1 hk.2.2

/-- Witness for C4: a one-cell ingest with 10 observations, and the
C3 derivation scenario with non-negative children. -/
theorem taxon_grid_written_rows_witness :
    (∀ r ∈ [(⟨1, 15, 3, 0, 0, 10, 1, 1, 2, 3, 4⟩ : TG)],
      r.taxon_id = 1 → r.zoom = 15 → r.slot_id = 3 →
      0 ≤ r.observations_count ∧
      ∃ c ∈ [(⟨some 0, some 0, some 15, some 10, some 1,
          some ⟨some ⟨some 1, some 2, []⟩, some ⟨some 3, some 4, []⟩, []⟩, []⟩ : GridCell)],
        c.x = some r.x ∧ c.y = some r.y ∧
        r.observations_count = obsD c ∧
        ((c.boundingBox.getD emptyBox).topLeft.getD emptyPoint).latitude =
          some r.bbox_top_lat ∧
        ((c.boundingBox.getD emptyBox).topLeft.getD emptyPoint).longitude =
          some r.bbox_left_lon ∧
        ((c.boundingBox.getD emptyBox).bottomRight.getD emptyPoint).latitude =
          some r.bbox_bottom_lat ∧
        ((c.boundingBox.getD emptyBox).bottomRight.getD emptyPoint).longitude =
          some r.bbox_right_lon) ∧
    (∀ r ∈ [(⟨42, 15, 0, 34000, 19000, 10, 1, 1, 2, 3, 4⟩ : TG),
            ⟨42, 15, 0, 34001, 19000, 5, 1, 1, 2, 3, 4⟩,
            ⟨42, 14, 0, 17000, 9500, 15, 1, 1, 2, 3, 4⟩],
      r.taxon_id = 42 → r.zoom = 14 → r.slot_id = 0 →
      0 ≤ r.observations_count ∧
      r.observations_count =
        ((childrenOf [⟨42, 15, 0, 34000, 19000, 10, 1, 1, 2, 3, 4⟩,
            ⟨42, 15, 0, 34001, 19000, 5, 1, 1, 2, 3, 4⟩] 42 0 15 (2 ^ ((15 : ℤ) - 14).toNat)
            r.x r.y).map TG.observations_count).sum ∧
      r.bbox_top_lat = (((childrenOf [⟨42, 15, 0, 34000, 19000, 10, 1, 1, 2, 3, 4⟩,
            ⟨42, 15, 0, 34001, 19000, 5, 1, 1, 2, 3, 4⟩] 42 0 15 (2 ^ ((15 : ℤ) - 14).toNat)
            r.x r.y).map TG.bbox_top_lat).max?).getD 0 ∧
      r.bbox_left_lon = (((childrenOf [⟨42, 15, 0, 34000, 19000, 10, 1, 1, 2, 3, 4⟩,
            ⟨42, 15, 0, 34001, 19000, 5, 1, 1, 2, 3, 4⟩] 42 0 15 (2 ^ ((15 : ℤ) - 14).toNat)
            r.x r.y).map TG.bbox_left_lon).min?).getD 0 ∧
      r.bbox_bottom_lat = (((childrenOf [⟨42, 15, 0, 34000, 19000, 10, 1, 1, 2, 3, 4⟩,
            ⟨42, 15, 0, 34001, 19000, 5, 1, 1, 2, 3, 4⟩] 42 0 15 (2 ^ ((15 : ℤ) - 14).toNat)
            r.x r.y).map TG.bbox_bottom_lat).min?).getD 0 ∧
      r.bbox_right_lon = (((childrenOf [⟨42, 15, 0, 34000, 19000, 10, 1, 1, 2, 3, 4⟩,
            ⟨42, 15, 0, 34001, 19000, 5, 1, 1, 2, 3, 4⟩] 42 0 15 (2 ^ ((15 : ℤ) - 14).toNat)
            r.x r.y).map TG.bbox_right_lon).max?).getD 0) :=
  taxon_grid_written_rows [] 1 15 3
    [⟨some 0, some 0, some 15, some 10, some 1,
      some ⟨some ⟨some 1, some 2, []⟩, some ⟨some 3, some 4, []⟩, []⟩, []⟩]
    [⟨1, 15, 3, 0, 0, 10, 1, 1, 2, 3, 4⟩] rfl (by decide)
    [⟨42, 15, 0, 34000, 19000, 10, 1, 1, 2, 3, 4⟩,
     ⟨42, 15, 0, 34001, 19000, 5, 1, 1, 2, 3, 4⟩] [] 42 0 15 14 "abc"
    [⟨42, 15, 0, 34000, 19000, 10, 1, 1, 2, 3, 4⟩,
     ⟨42, 15, 0, 34001, 19000, 5, 1, 1, 2, 3, 4⟩,
     ⟨42, 14, 0, 17000, 9500, 15, 1, 1, 2, 3, 4⟩]
    [⟨42, 14, 0, "LOCAL_FROM_15:abc", 1⟩] (by decide) rfl (by decide)

/-! ## Claim C1 — hotmap coverage and score -/

/-- The `taxon_grid` rows of tile `(x, y)` that survive the hotmap
query's `WHERE zoom=? AND slot_id=? AND taxon_id IN (…)` filter. -/
def tileRowsOf (grid : List TG) (zoom slot_id : ℤ) (taxon_ids : List ℤ) (x y : ℤ) :
    List TG :=
  (grid.filter fun r =>
    decide (r.zoom = zoom ∧ r.slot_id = slot_id ∧ r.taxon_id ∈ taxon_ids)).filter
    fun r => decide (r.x = x ∧ r.y = y)

/-- The claim's coverage (amended): the number of distinct `t` in the
active list for which a `taxon_grid` row exists at
`(t, zoom, slot_id, x, y)` — with any `observations_count`. -/
def distinctTaxaWithRows (grid : List TG) (taxon_ids : List ℤ)
    (zoom slot_id x y : ℤ) : ℕ :=
  (taxon_ids.dedup.filter fun t => grid.any fun r =>
    decide (r.taxon_id = t ∧ r.zoom = zoom ∧ r.slot_id = slot_id ∧
      r.x = x ∧ r.y = y)).length

/-- The claim's coverage as frozen: only taxa with a row whose
`observations_count` is positive count.  (The SQL has no such filter;
see the counterexample.) -/
def distinctTaxaWithPosObs (grid : List TG) (taxon_ids : List ℤ)
    (zoom slot_id x y : ℤ) : ℕ :=
  (taxon_ids.dedup.filter fun t => grid.any fun r =>
    decide (r.taxon_id = t ∧ r.zoom = zoom ∧ r.slot_id = slot_id ∧
      r.x = x ∧ r.y = y ∧ 0 < r.observations_count)).length

/-- The claim's `obs_total`: the sum of `observations_count` over the
tile's rows with an active taxon. -/
def tileObsSum (grid : List TG) (zoom slot_id : ℤ) (taxon_ids : List ℤ) (x y : ℤ) : ℤ :=
  ((tileRowsOf grid zoom slot_id taxon_ids x y).map TG.observations_count).sum

/-- Decomposition of `rebuild_hotmap` on a non-empty taxa list: the
old `(zoom, slot_id)` hotmap rows are dropped and each inserted row
aggregates its tile group. -/
theorem rebuild_spec (grid : List TG) (hot : List HotRow) (tset : List TaxaSetRow)
    (zoom slot_id : ℤ) (taxon_ids : List ℤ) (hT : taxon_ids ≠ []) :
    ∃ newRows : List HotRow,
      (rebuild_hotmap grid hot tset zoom slot_id taxon_ids).1 =
        (hot.filter fun r => !(decide (r.zoom = zoom ∧ r.slot_id = slot_id))) ++ newRows ∧
      ∀ r ∈ newRows, r.zoom = zoom ∧ r.slot_id = slot_id ∧
        r.coverage =
          ((tileRowsOf grid zoom slot_id taxon_ids r.x r.y).map TG.taxon_id).dedup.length ∧
        r.obs_total = tileObsSum grid zoom slot_id taxon_ids r.x r.y := by
  rw [rebuild_hotmap, if_neg hT]
  refine ⟨_, rfl, ?_⟩
  intro r hr
  obtain ⟨k, hk, rfl⟩ := List.mem_map.mp hr
  exact ⟨rfl, rfl, rfl, rfl⟩

/-- `COUNT(DISTINCT taxon_id)` over a tile group equals the number of
distinct active taxa that have a row in the tile. -/
theorem coverage_eq_distinct (grid : List TG) (zoom slot_id : ℤ)
    (taxon_ids : List ℤ) (x y : ℤ) :
    ((tileRowsOf grid zoom slot_id taxon_ids x y).map TG.taxon_id).dedup.length =
      distinctTaxaWithRows grid taxon_ids zoom slot_id x y := by
  apply length_eq_of_nodup_of_mem_iff (List.nodup_dedup _)
    ((List.nodup_dedup taxon_ids).filter _)
  intro a
  constructor
  · intro ha
    obtain ⟨r, hr, rfl⟩ := List.mem_map.mp (List.mem_dedup.mp ha)
    have h2 := List.mem_filter.mp hr
    have h1 := List.mem_filter.mp h2.1
    have hk1 := of_decide_eq_true h1.2
    have hk2 := of_decide_eq_true h2.2
    refine List.mem_filter.mpr ⟨List.mem_dedup.mpr hk1.2.2, ?_⟩
    exact List.any_eq_true.mpr
      ⟨r, h1.1, decide_eq_true ⟨rfl, hk1.1, hk1.2.1, hk2.1, hk2.2⟩⟩
  · intro ha
    have h := List.mem_filter.mp ha
    obtain ⟨r, hrin, hprops⟩ := List.any_eq_true.mp h.2
    have hp := of_decide_eq_true hprops
    refine List.mem_dedup.mpr (List.mem_map.mpr ⟨r, ?_, hp.1⟩)
    refine List.mem_filter.mpr
      ⟨List.mem_filter.mpr ⟨hrin, decide_eq_true ⟨hp.2.1, hp.2.2.1, ?_⟩⟩,
        decide_eq_true ⟨hp.2.2.2.1, hp.2.2.2.2⟩⟩
    rw [hp.1]
    exact List.mem_dedup.mp h.1

/-- **C1 counterexample.**  With a single `taxon_grid` row that has
`observations_count = 0`, the rebuilt hotmap row for its tile has
`coverage = 1` (the SQL `COUNT(DISTINCT taxon_id)` has no
`observations_count > 0` filter), while the claim's
strictly-positive-observations coverage is `0`. -/
theorem rebuild_hotmap_obs_filter_refuted :
    ¬ (∀ r ∈ (rebuild_hotmap [⟨1, 0, 0, 0, 0, 0, 0, 0, 0, 0, 0⟩] [] [] 0 0 [1]).1,
        r.zoom = 0 → r.slot_id = 0 →
        r.coverage =
          distinctTaxaWithPosObs [⟨1, 0, 0, 0, 0, 0, 0, 0, 0, 0, 0⟩] [1] 0 0 r.x r.y) := by
  decide

/-- **C1 (amended).**  After `rebuild_hotmap(zoom, slot_id, T, α, β)`
with a non-empty `T`, every `grid_hotmap` row at `(zoom, slot_id)` has
`coverage` equal to the number of distinct `t ∈ T` for which a
`taxon_grid` row exists at `(t, zoom, slot_id, x, y)` — regardless of
its `observations_count` — and a score equal to
`coverage^α / (obs_total + 1)^β` with `obs_total` the sum of
`observations_count` over the tile's active-taxon rows. -/
theorem rebuild_hotmap_coverage_and_score (grid : List TG) (hot : List HotRow)
    (tset : List TaxaSetRow) (zoom slot_id : ℤ) (taxon_ids : List ℤ) (α β : ℝ)
    (hT : taxon_ids ≠ []) :
    ∀ r ∈ (rebuild_hotmap grid hot tset zoom slot_id taxon_ids).1,
      r.zoom = zoom → r.slot_id = slot_id →
      r.coverage = distinctTaxaWithRows grid taxon_ids zoom slot_id r.x r.y ∧
      r.obs_total = tileObsSum grid zoom slot_id taxon_ids r.x r.y ∧
      (r.coverage : ℝ) ^ α / ((r.obs_total : ℝ) + 1) ^ β =
        (distinctTaxaWithRows grid taxon_ids zoom slot_id r.x r.y : ℝ) ^ α /
          ((tileObsSum grid zoom slot_id taxon_ids r.x r.y : ℝ) + 1) ^ β := by
  obtain ⟨newRows, heq, hnew⟩ := rebuild_spec grid hot tset zoom slot_id taxon_ids hT
  intro r hr h1 h2
  rw [heq] at hr
  rcases List.mem_append.mp hr with hl | hn
  · have hneg := (List.mem_filter.mp hl).2
    simp [h1, h2] at hneg
  · obtain ⟨_, _, hcov, hobs⟩ := hnew r hn
    have hc := hcov.trans (coverage_eq_distinct grid zoom slot_id taxon_ids r.x r.y)
    exact ⟨hc, hobs, by rw [hc, hobs]⟩

/-- Witness for C1 (the spec's hotmap-scoring scenario, tile
`(17000, 9500)` with taxa 1 and 2, `α = 2`, `β = 0.5`). -/
theorem rebuild_hotmap_coverage_and_score_witness :
    ([1, 2] : List ℤ) ≠ [] ∧
    (∀ r ∈ (rebuild_hotmap
        [⟨1, 15, 0, 17000, 9500, 10, 1, 1, 2, 3, 4⟩,
         ⟨2, 15, 0, 17000, 9500, 20, 1, 1, 2, 3, 4⟩] [] [] 15 0 [1, 2]).1,
      r.zoom = 15 → r.slot_id = 0 →
      r.coverage = distinctTaxaWithRows
        [⟨1, 15, 0, 17000, 9500, 10, 1, 1, 2, 3, 4⟩,
         ⟨2, 15, 0, 17000, 9500, 20, 1, 1, 2, 3, 4⟩] [1, 2] 15 0 r.x r.y ∧
      r.obs_total = tileObsSum
        [⟨1, 15, 0, 17000, 9500, 10, 1, 1, 2, 3, 4⟩,
         ⟨2, 15, 0, 17000, 9500, 20, 1, 1, 2, 3, 4⟩] 15 0 [1, 2] r.x r.y ∧
      (r.coverage : ℝ) ^ (2 : ℝ) / ((r.obs_total : ℝ) + 1) ^ (1/2 : ℝ) =
        (distinctTaxaWithRows
          [⟨1, 15, 0, 17000, 9500, 10, 1, 1, 2, 3, 4⟩,
           ⟨2, 15, 0, 17000, 9500, 20, 1, 1, 2, 3, 4⟩] [1, 2] 15 0 r.x r.y : ℝ) ^ (2 : ℝ) /
          ((tileObsSum
            [⟨1, 15, 0, 17000, 9500, 10, 1, 1, 2, 3, 4⟩,
             ⟨2, 15, 0, 17000, 9500, 20, 1, 1, 2, 3, 4⟩] 15 0 [1, 2] r.x r.y : ℝ) + 1) ^ (1/2 : ℝ)) :=
  ⟨by decide, rebuild_hotmap_coverage_and_score
    [⟨1, 15, 0, 17000, 9500, 10, 1, 1, 2, 3, 4⟩,
     ⟨2, 15, 0, 17000, 9500, 20, 1, 1, 2, 3, 4⟩] [] [] 15 0 [1, 2] 2 (1/2) (by decide)⟩

/-! ## Claim C5 — recursive bbox split and payload merge -/

/-- Bool test for «this cell/entry has merge key `k`». -/
def isKeyB (k : ℤ × ℤ) (e : GridCell) : Bool := decide (cellKey e = some k)

/-- The per-key sum of a numeric cell field over a cell list. -/
def keySum (f : GridCell → ℤ) (k : ℤ × ℤ) (l : List GridCell) : ℤ :=
  ((l.filter (isKeyB k)).map f).sum

theorem cellKey_bumpCell (c e : GridCell) : cellKey (bumpCell c e) = cellKey e := rfl

theorem keySum_cons (f : GridCell → ℤ) (k : ℤ × ℤ) (e : GridCell) (l : List GridCell) :
    keySum f k (e :: l) = (if isKeyB k e then f e else 0) + keySum f k l := by
  rw [keySum, List.filter_cons]
  split <;> simp [keySum]

theorem countP_insertCell {k : ℤ × ℤ} {c : GridCell} (hck : cellKey c = some k)
    (k' : ℤ × ℤ) :
    ∀ acc : List GridCell,
      (insertCell k c acc).countP (isKeyB k') =
        acc.countP (isKeyB k') +
          if acc.countP (isKeyB k) = 0 ∧ k' = k then 1 else 0 := by
  intro acc
  induction acc with
  | nil =>
    simp only [insertCell, List.countP_cons, List.countP_nil, isKeyB, hck,
      Nat.zero_add, true_and]
    by_cases hkk : k' = k
    · subst hkk; simp
    · have hkk2 : ¬ k = k' := fun h => hkk h.symm
      simp [hkk, hkk2]
  | cons e rest ih =>
    by_cases he : cellKey e = some k
    · rw [insertCell, if_pos he, List.countP_cons, List.countP_cons]
      have hb : isKeyB k' (bumpCell c e) = isKeyB k' e := by
        simp [isKeyB, cellKey_bumpCell]
      rw [hb]
      have hcond : ¬ ((e :: rest).countP (isKeyB k) = 0 ∧ k' = k) := by
        rintro ⟨h0, -⟩
        rw [List.countP_cons] at h0
        have hkt : isKeyB k e = true := decide_eq_true he
        rw [hkt] at h0
        simp at h0
      rw [if_neg hcond]
      simp
    · rw [insertCell, if_neg he, List.countP_cons, List.countP_cons, ih]
      have hkey : isKeyB k e = false := decide_eq_false he
      have : (e :: rest).countP (isKeyB k) = rest.countP (isKeyB k) := by
        simp [List.countP_cons, hkey]
      rw [this]
      ring

theorem keySum_insertCell (f : GridCell → ℤ)
    (hf : ∀ c e, f (bumpCell c e) = f e + f c)
    {k : ℤ × ℤ} {c : GridCell} (hck : cellKey c = some k) (k' : ℤ × ℤ) :
    ∀ acc : List GridCell,
      keySum f k' (insertCell k c acc) =
        keySum f k' acc + if k' = k then f c else 0 := by
  intro acc
  induction acc with
  | nil =>
    rw [insertCell, keySum_cons]
    by_cases hkk : k' = k
    · subst hkk; simp [keySum, isKeyB, hck]
    · have hkk2 : ¬ k = k' := fun h => hkk h.symm
      have : isKeyB k' c = false := by
        simp [isKeyB, hck, hkk2]
      simp [this, hkk, keySum]
  | cons e rest ih =>
    by_cases he : cellKey e = some k
    · rw [insertCell, if_pos he, keySum_cons, keySum_cons]
      have hb : isKeyB k' (bumpCell c e) = isKeyB k' e := by
        simp [isKeyB, cellKey_bumpCell]
      rw [hb]
      by_cases hkk : k' = k
      · subst hkk
        have : isKeyB k' e = true := decide_eq_true he
        rw [this, if_pos rfl]
        simp only [if_true]
        rw [hf]
        ring
      · have hkk2 : ¬ k = k' := fun h => hkk h.symm
        have : isKeyB k' e = false := by
          simp [isKeyB, he, hkk2]
        rw [this, if_neg hkk]
        simp
    · rw [insertCell, if_neg he, keySum_cons, keySum_cons, ih]
      ring

theorem insertCell_append {k : ℤ × ℤ} (c : GridCell) :
    ∀ acc : List GridCell, (∀ e ∈ acc, ¬ cellKey e = some k) →
      insertCell k c acc = acc ++ [c] := by
  intro acc
  induction acc with
  | nil => intro _; rfl
  | cons e rest ih =>
    intro h
    rw [insertCell, if_neg (h e (List.mem_cons_self e rest)),
      ih fun e' he' => h e' (List.mem_cons_of_mem e he'), List.cons_append]

theorem foldl_merge_isSome :
    ∀ (cells : List GridCell) (acc : List GridCell),
      (∀ c ∈ cells, (cellKey c).isSome) →
      ∃ m, cells.foldlM mergeStep acc = some m := by
  intro cells
  induction cells with
  | nil => exact fun acc _ => ⟨acc, rfl⟩
  | cons c rest ih =>
    intro acc hk
    obtain ⟨k, hck⟩ := Option.isSome_iff_exists.mp (hk c (List.mem_cons_self c rest))
    obtain ⟨m, hm⟩ := ih (insertCell k c acc) fun c' hc' => hk c' (List.mem_cons_of_mem c hc')
    refine ⟨m, ?_⟩
    rw [List.foldlM_cons, mergeStep, hck, Option.map_some']
    simp only [Option.bind_eq_bind, Option.some_bind]
    exact hm

theorem countP_foldl_merge :
    ∀ (cells : List GridCell) {acc m : List GridCell},
      cells.foldlM mergeStep acc = some m →
      (∀ c ∈ cells, (cellKey c).isSome) →
      (∀ k₀, acc.countP (isKeyB k₀) ≤ 1) →
      ∀ k', m.countP (isKeyB k') =
        if acc.countP (isKeyB k') = 1 ∨ ∃ c ∈ cells, cellKey c = some k'
        then 1 else 0 := by
  intro cells
  induction cells with
  | nil =>
    intro acc m hm _ hinv k'
    rw [List.foldlM_nil] at hm
    cases hm
    simp only [List.not_mem_nil, false_and, exists_false, or_false]
    have := hinv k'
    by_cases hc : acc.countP (isKeyB k') = 1
    · simp [hc]
    · have h0 : acc.countP (isKeyB k') = 0 := by omega
      simp [hc, h0]
  | cons c rest ih =>
    intro acc m hm hk hinv k'
    obtain ⟨k, hck⟩ := Option.isSome_iff_exists.mp (hk c (List.mem_cons_self c rest))
    rw [List.foldlM_cons, mergeStep, hck, Option.map_some'] at hm
    simp only [Option.bind_eq_bind, Option.some_bind] at hm
    have hinv' : ∀ k₀, (insertCell k c acc).countP (isKeyB k₀) ≤ 1 := by
      intro k₀
      rw [countP_insertCell hck k₀ acc]
      have h1 := hinv k₀
      have h2 := hinv k
      split
      · rename_i hsp
        obtain ⟨h0, rfl⟩ := hsp
        omega
      · omega
    rw [ih hm (fun c' hc' => hk c' (List.mem_cons_of_mem c hc')) hinv' k']
    apply if_congr _ rfl rfl
    rw [countP_insertCell hck k' acc]
    by_cases hkk : k' = k
    · subst hkk
      constructor
      · intro _
        exact Or.inr ⟨c, List.mem_cons_self c rest, hck⟩
      · intro _
        left
        have h1 := hinv k'
        by_cases h0 : acc.countP (isKeyB k') = 0
        · simp [h0]
        · rw [if_neg fun hc => h0 hc.1]
          omega
    · have hδ : ¬ (acc.countP (isKeyB k) = 0 ∧ k' = k) := fun h => hkk h.2
      rw [if_neg hδ]
      constructor
      · rintro (h1 | ⟨c', hc', hck'⟩)
        · exact Or.inl (by omega)
        · exact Or.inr ⟨c', List.mem_cons_of_mem c hc', hck'⟩
      · rintro (h1 | ⟨c', hc', hck'⟩)
        · exact Or.inl (by omega)
        · rcases List.mem_cons.mp hc' with rfl | hc''
          · exact absurd (hck ▸ hck' : (some k : Option (ℤ × ℤ)) = some k')
              fun h => hkk (Option.some.injEq _ _ ▸ h :).symm
          · exact Or.inr ⟨c', hc'', hck'⟩

theorem keySum_foldl_merge (f : GridCell → ℤ)
    (hf : ∀ c e, f (bumpCell c e) = f e + f c) :
    ∀ (cells : List GridCell) {acc m : List GridCell},
      cells.foldlM mergeStep acc = some m →
      (∀ c ∈ cells, (cellKey c).isSome) →
      ∀ k', keySum f k' m = keySum f k' acc + keySum f k' cells := by
  intro cells
  induction cells with
  | nil =>
    intro acc m hm _ k'
    rw [List.foldlM_nil] at hm
    cases hm
    simp [keySum]
  | cons c rest ih =>
    intro acc m hm hk k'
    obtain ⟨k, hck⟩ := Option.isSome_iff_exists.mp (hk c (List.mem_cons_self c rest))
    rw [List.foldlM_cons, mergeStep, hck, Option.map_some'] at hm
    simp only [Option.bind_eq_bind, Option.some_bind] at hm
    rw [ih hm (fun c' hc' => hk c' (List.mem_cons_of_mem c hc')) k',
      keySum_insertCell f hf hck k' acc, keySum_cons]
    have : (if isKeyB k' c then f c else 0) = (if k' = k then f c else 0) := by
      by_cases hkk : k' = k
      · subst hkk
        have hkt : isKeyB k' c = true := decide_eq_true hck
        rw [hkt]
        simp
      · have hkk2 : ¬ k = k' := fun h => hkk h.symm
        rw [if_neg (by simp [isKeyB, hck, hkk2]), if_neg hkk]
    rw [this]
    ring

theorem foldl_merge_disjoint :
    ∀ (cells : List GridCell) (acc : List GridCell),
      (∀ c ∈ cells, ∀ e ∈ acc, cellKey e ≠ cellKey c) →
      (∀ c ∈ cells, (cellKey c).isSome) →
      ((cells.map cellKey).Nodup) →
      cells.foldlM mergeStep acc = some (acc ++ cells) := by
  intro cells
  induction cells with
  | nil => intro acc _ _ _; simp
  | cons c rest ih =>
    intro acc hdisj hk hnd
    obtain ⟨k, hck⟩ := Option.isSome_iff_exists.mp (hk c (List.mem_cons_self c rest))
    rw [List.foldlM_cons, mergeStep, hck, Option.map_some']
    simp only [Option.bind_eq_bind, Option.some_bind]
    rw [insertCell_append c acc fun e he h =>
      hdisj c (List.mem_cons_self c rest) e he (h.trans hck.symm)]
    have hstep := ih (acc ++ [c])
      (fun c' hc' e he => by
        rcases List.mem_append.mp he with hea | hec
        · exact hdisj c' (List.mem_cons_of_mem c hc') e hea
        · have he2 : e = c := List.mem_singleton.mp hec
          rw [he2, hck]
          intro hkey
          have hnotin := (List.nodup_cons.mp (List.map_cons cellKey c rest ▸ hnd)).1
          exact hnotin (by rw [hck.trans hkey]; exact List.mem_map_of_mem cellKey hc')
        )
      (fun c' hc' => hk c' (List.mem_cons_of_mem c hc'))
      ((List.nodup_cons.mp (List.map_cons cellKey c rest ▸ hnd)).2)
    rw [hstep, List.append_assoc, List.singleton_append]

/-- The NW quadrant cut at the mid latitude and mid longitude. -/
def bboxNW (bb : BBox) : BBox :=
  ⟨bb.top_lat, bb.left_lon, (bb.top_lat + bb.bottom_lat) / 2, (bb.left_lon + bb.right_lon) / 2⟩

/-- The NE quadrant. -/
def bboxNE (bb : BBox) : BBox :=
  ⟨bb.top_lat, (bb.left_lon + bb.right_lon) / 2, (bb.top_lat + bb.bottom_lat) / 2, bb.right_lon⟩

/-- The SW quadrant. -/
def bboxSW (bb : BBox) : BBox :=
  ⟨(bb.top_lat + bb.bottom_lat) / 2, bb.left_lon, bb.bottom_lat, (bb.left_lon + bb.right_lon) / 2⟩

/-- The SE quadrant. -/
def bboxSE (bb : BBox) : BBox :=
  ⟨(bb.top_lat + bb.bottom_lat) / 2, (bb.left_lon + bb.right_lon) / 2, bb.bottom_lat, bb.right_lon⟩

/-- What `_merge_geogrid_payloads` guarantees about its merged cell
list: exactly one cell per `(x, y)` key occurring in any sub-payload;
per-key `observationsCount` and `taxaCount` sums preserved (missing
counts read as the code's `or 0` coercion); and when all sub-payload
cells have pairwise-distinct keys, the merged list is the
concatenation verbatim, so its length is the sum of the sub-payload
cell counts. -/
def mergedCellsSpec (ps : List Payload) (m : List GridCell) : Prop :=
  (∀ k : ℤ × ℤ, m.countP (isKeyB k) =
    if ∃ c ∈ ps.flatMap Payload.gridCells, cellKey c = some k then 1 else 0) ∧
  (∀ e ∈ m, ∀ k : ℤ × ℤ, cellKey e = some k →
    obsD e = keySum obsD k (ps.flatMap Payload.gridCells) ∧
    taxaD e = keySum taxaD k (ps.flatMap Payload.gridCells)) ∧
  (((ps.flatMap Payload.gridCells).map cellKey).Nodup →
    m = ps.flatMap Payload.gridCells ∧
    m.length = (ps.map fun p => p.gridCells.length).sum)

/-- A list with exactly one `p`-element, one of whose members
satisfies `p`, filters to that singleton. -/
theorem filter_eq_singleton_of_countP_one {α : Type} {p : α → Bool} {l : List α}
    (h1 : l.countP p = 1) {e : α} (he : e ∈ l) (hpe : p e) : l.filter p = [e] := by
  have hlen : (l.filter p).length = 1 := by
    rw [← List.countP_eq_length_filter]
    exact h1
  obtain ⟨a, ha⟩ := List.length_eq_one.mp hlen
  have hmem : e ∈ l.filter p := List.mem_filter.mpr ⟨he, hpe⟩
  rw [ha] at hmem
  rw [ha, List.mem_singleton.mp hmem]

/-- `_merge_geogrid_payloads` on key-complete payload lists: success,
with the first non-empty top-level extras and `mergedCellsSpec`. -/
theorem merge_geogrid_payloads_spec (ps : List Payload)
    (hk : ∀ c ∈ ps.flatMap Payload.gridCells, (cellKey c).isSome) :
    ∃ m : List GridCell,
      merge_geogrid_payloads ps = some
        { extra := ps.foldl (fun o p => if o.isEmpty then p.extra else o) [],
          gridCells := m } ∧
      mergedCellsSpec ps m := by
  obtain ⟨m, hm⟩ := foldl_merge_isSome (ps.flatMap Payload.gridCells) [] hk
  have hcount := countP_foldl_merge (ps.flatMap Payload.gridCells) hm hk
    (fun k₀ => by simp)
  refine ⟨m, by rw [merge_geogrid_payloads, hm, Option.map_some'], ?_, ?_, ?_⟩
  · intro k
    rw [hcount k]
    apply if_congr _ rfl rfl
    simp
  · intro e hem k hek
    have hobs := keySum_foldl_merge obsD (fun c e => rfl)
      (ps.flatMap Payload.gridCells) hm hk k
    have htaxa := keySum_foldl_merge taxaD (fun c e => rfl)
      (ps.flatMap Payload.gridCells) hm hk k
    have hpos : 0 < m.countP (isKeyB k) :=
      List.countP_pos_iff.mpr ⟨e, hem, decide_eq_true hek⟩
    have h1 : m.countP (isKeyB k) = 1 := by
      by_cases hex : ∃ c ∈ ps.flatMap Payload.gridCells, cellKey c = some k
      · rw [hcount k, if_pos (Or.inr hex)]
      · rw [hcount k, if_neg ?_] at hpos
        · exact absurd hpos (by simp)
        · rintro (h | h)
          · simp at h
          · exact hex h
    have hsingle : m.filter (isKeyB k) = [e] :=
      filter_eq_singleton_of_countP_one h1 hem (decide_eq_true hek)
    have hmObs : keySum obsD k m = obsD e := by
      rw [keySum, hsingle]
      simp
    have hmTaxa : keySum taxaD k m = taxaD e := by
      rw [keySum, hsingle]
      simp
    constructor
    · rw [← hmObs, hobs, show keySum obsD k [] = 0 from rfl, zero_add]
    · rw [← hmTaxa, htaxa, show keySum taxaD k [] = 0 from rfl, zero_add]
  · intro hnd
    have hdisj := foldl_merge_disjoint (ps.flatMap Payload.gridCells) []
      (fun c _ e he => absurd he (List.not_mem_nil e)) hk hnd
    have hmf : m = ps.flatMap Payload.gridCells := by
      have h2 := hm.symm.trans hdisj
      rw [List.nil_append] at h2
      exact Option.some.injEq _ _ ▸ h2
    refine ⟨hmf, ?_⟩
    rw [hmf, List.length_flatMap]
    rfl

/-- One-step unfolding of the recursion at remaining depth budget
`fuel + 1` (that is, at recursion depth `< max_depth`). -/
theorem resilientTry_succ (upstream : BBox → UpstreamResult) (fuel : ℕ) (bb : BBox) :
    resilientTry upstream (fuel + 1) bb =
      match upstream bb with
      | .ok p => some p
      | .fatal => none
      | .tooManyCells =>
        match split_bbox_4 bb with
        | [q1, q2, q3, q4] => do
          let p1 ← resilientTry upstream fuel q1
          let p2 ← resilientTry upstream fuel q2
          let p3 ← resilientTry upstream fuel q3
          let p4 ← resilientTry upstream fuel q4
          merge_geogrid_payloads [p1, p2, p3, p4]
        | _ => none := rfl

/-- **C5.** When `geogrid_aggregation_resilient` receives the
"too many cells" HTTP-400 error at a recursion depth below
`max_depth` (remaining budget `fuel + 1`), it splits the active bbox
at the mid latitude and mid longitude into the four quadrants — which
cover the bbox and have pairwise disjoint interiors — recurses on
each, and returns the merged payload: exactly one cell per `(x, y)`
occurring in any sub-payload, with summed `observationsCount` and
summed `taxaCount`; and when the sub-payloads' cells are pairwise
disjoint in `(x, y)`, the merged cell list is their concatenation, of
length the sum of the sub-payload cell counts. -/
theorem geogrid_resilient_split_merge
    (upstream : BBox → UpstreamResult) (fuel : ℕ) (bb : BBox)
    (p₁ p₂ p₃ p₄ : Payload)
    (h400 : upstream bb = .tooManyCells)
    (h₁ : resilientTry upstream fuel (bboxNW bb) = some p₁)
    (h₂ : resilientTry upstream fuel (bboxNE bb) = some p₂)
    (h₃ : resilientTry upstream fuel (bboxSW bb) = some p₃)
    (h₄ : resilientTry upstream fuel (bboxSE bb) = some p₄)
    (hk : ∀ c ∈ ([p₁, p₂, p₃, p₄].flatMap Payload.gridCells), (cellKey c).isSome) :
    split_bbox_4 bb = [bboxNW bb, bboxNE bb, bboxSW bb, bboxSE bb] ∧
    (bb.bottom_lat ≤ bb.top_lat → bb.left_lon ≤ bb.right_lon →
      ∀ la lo : ℚ, inBBox bb la lo ↔
        (inBBox (bboxNW bb) la lo ∨ inBBox (bboxNE bb) la lo ∨
         inBBox (bboxSW bb) la lo ∨ inBBox (bboxSE bb) la lo)) ∧
    (∀ la lo : ℚ,
      ¬ (inBBoxInterior (bboxNW bb) la lo ∧ inBBoxInterior (bboxNE bb) la lo) ∧
      ¬ (inBBoxInterior (bboxNW bb) la lo ∧ inBBoxInterior (bboxSW bb) la lo) ∧
      ¬ (inBBoxInterior (bboxNW bb) la lo ∧ inBBoxInterior (bboxSE bb) la lo) ∧
      ¬ (inBBoxInterior (bboxNE bb) la lo ∧ inBBoxInterior (bboxSW bb) la lo) ∧
      ¬ (inBBoxInterior (bboxNE bb) la lo ∧ inBBoxInterior (bboxSE bb) la lo) ∧
      ¬ (inBBoxInterior (bboxSW bb) la lo ∧ inBBoxInterior (bboxSE bb) la lo)) ∧
    ∃ m : List GridCell,
      geogrid_aggregation_resilient upstream (fuel + 1) bb = some
        { extra := [p₁, p₂, p₃, p₄].foldl (fun o p => if o.isEmpty then p.extra else o) [],
          gridCells := m } ∧
      mergedCellsSpec [p₁, p₂, p₃, p₄] m := by
  refine ⟨rfl, ?_, ?_, ?_⟩
  · intro hbt hlr la lo
    constructor
    · rintro ⟨hb, ht, hl, hr⟩
      rcases le_total la ((bb.top_lat + bb.bottom_lat) / 2) with hla | hla <;>
        rcases le_total lo ((bb.left_lon + bb.right_lon) / 2) with hlo | hlo
      · exact Or.inr (Or.inr (Or.inl ⟨hb, hla, hl, hlo⟩))
      · exact Or.inr (Or.inr (Or.inr ⟨hb, hla, hlo, hr⟩))
      · exact Or.inl ⟨hla, ht, hl, hlo⟩
      · exact Or.inr (Or.inl ⟨hla, ht, hlo, hr⟩)
    · rintro (⟨hb, ht, hl, hr⟩ | ⟨hb, ht, hl, hr⟩ | ⟨hb, ht, hl, hr⟩ | ⟨hb, ht, hl, hr⟩) <;>
        exact ⟨by simp only [bboxNW, bboxNE, bboxSW, bboxSE] at *; linarith,
               by simp only [bboxNW, bboxNE, bboxSW, bboxSE] at *; linarith,
               by simp only [bboxNW, bboxNE, bboxSW, bboxSE] at *; linarith,
               by simp only [bboxNW, bboxNE, bboxSW, bboxSE] at *; linarith⟩
  · intro la lo
    refine ⟨?_, ?_, ?_, ?_, ?_, ?_⟩ <;>
      rintro ⟨⟨a1, a2, a3, a4⟩, ⟨b1, b2, b3, b4⟩⟩ <;>
      simp only [bboxNW, bboxNE, bboxSW, bboxSE] at * <;> linarith
  · have hstep : resilientTry upstream (fuel + 1) bb =
        merge_geogrid_payloads [p₁, p₂, p₃, p₄] := by
      rw [resilientTry_succ, h400]
      show (match split_bbox_4 bb with
        | [q1, q2, q3, q4] => do
          let p1 ← resilientTry upstream fuel q1
          let p2 ← resilientTry upstream fuel q2
          let p3 ← resilientTry upstream fuel q3
          let p4 ← resilientTry upstream fuel q4
          merge_geogrid_payloads [p1, p2, p3, p4]
        | _ => none) = _
      have hq : split_bbox_4 bb = [bboxNW bb, bboxNE bb, bboxSW bb, bboxSE bb] := rfl
      rw [hq]
      show (do
        let p1 ← resilientTry upstream fuel (bboxNW bb)
        let p2 ← resilientTry upstream fuel (bboxNE bb)
        let p3 ← resilientTry upstream fuel (bboxSW bb)
        let p4 ← resilientTry upstream fuel (bboxSE bb)
        merge_geogrid_payloads [p1, p2, p3, p4]) = _
      rw [h₁, h₂, h₃, h₄]
      simp only [Option.bind_eq_bind, Option.some_bind]
    obtain ⟨m, hmerge, hspec⟩ := merge_geogrid_payloads_spec [p₁, p₂, p₃, p₄] hk
    exact ⟨m, by rw [geogrid_aggregation_resilient, hstep, hmerge], hspec⟩

/-- A concrete upstream oracle for exercising the split-and-merge
path: the full box `⟨1, 0, -1, 2⟩` is refused as too large, and each
quadrant returns one single-cell payload with its own `(x, y)` key. -/
def upstreamW : BBox → UpstreamResult := fun b =>
  if b = ⟨1, 0, -1, 2⟩ then .tooManyCells
  else if b = ⟨1, 0, 0, 1⟩ then
    .ok ⟨[], [⟨some 0, some 0, some 1, some 3, some 1, none, []⟩]⟩
  else if b = ⟨1, 1, 0, 2⟩ then
    .ok ⟨[], [⟨some 1, some 0, some 1, some 5, some 2, none, []⟩]⟩
  else if b = ⟨0, 0, -1, 1⟩ then
    .ok ⟨[], [⟨some 0, some 1, some 1, some 7, some 1, none, []⟩]⟩
  else .ok ⟨[], [⟨some 1, some 1, some 1, some 9, some 4, none, []⟩]⟩

/-- One-step unfolding of the recursion at exhausted depth budget. -/
theorem resilientTry_zero (upstream : BBox → UpstreamResult) (bb : BBox) :
    resilientTry upstream 0 bb =
      match upstream bb with
      | .ok p => some p
      | _ => none := rfl

/-- Witness for C5: one refused box, four one-cell quadrant payloads
with pairwise distinct keys, merged by the resilient client. -/
theorem geogrid_resilient_split_merge_witness :
    ∃ m : List GridCell,
      geogrid_aggregation_resilient upstreamW 1 ⟨1, 0, -1, 2⟩ = some ⟨[], m⟩ ∧
      mergedCellsSpec
        [⟨[], [⟨some 0, some 0, some 1, some 3, some 1, none, []⟩]⟩,
         ⟨[], [⟨some 1, some 0, some 1, some 5, some 2, none, []⟩]⟩,
         ⟨[], [⟨some 0, some 1, some 1, some 7, some 1, none, []⟩]⟩,
         ⟨[], [⟨some 1, some 1, some 1, some 9, some 4, none, []⟩]⟩] m := by
  have hNW : bboxNW ⟨1, 0, -1, 2⟩ = ⟨1, 0, 0, 1⟩ := by
    simp only [bboxNW, BBox.mk.injEq]
    norm_num
  have hNE : bboxNE ⟨1, 0, -1, 2⟩ = ⟨1, 1, 0, 2⟩ := by
    simp only [bboxNE, BBox.mk.injEq]
    norm_num
  have hSW : bboxSW ⟨1, 0, -1, 2⟩ = ⟨0, 0, -1, 1⟩ := by
    simp only [bboxSW, BBox.mk.injEq]
    norm_num
  have hSE : bboxSE ⟨1, 0, -1, 2⟩ = ⟨0, 1, -1, 2⟩ := by
    simp only [bboxSE, BBox.mk.injEq]
    norm_num
  have h400 : upstreamW ⟨1, 0, -1, 2⟩ = .tooManyCells := by
    rw [upstreamW]
    rw [if_pos rfl]
  have h₁ : resilientTry upstreamW 0 (bboxNW ⟨1, 0, -1, 2⟩) =
      some ⟨[], [⟨some 0, some 0, some 1, some 3, some 1, none, []⟩]⟩ := by
    rw [resilientTry_zero, hNW, upstreamW]
    rw [if_neg (by simp only [BBox.mk.injEq]; norm_num), if_pos rfl]
  have h₂ : resilientTry upstreamW 0 (bboxNE ⟨1, 0, -1, 2⟩) =
      some ⟨[], [⟨some 1, some 0, some 1, some 5, some 2, none, []⟩]⟩ := by
    rw [resilientTry_zero, hNE, upstreamW]
    rw [if_neg (by simp only [BBox.mk.injEq]; norm_num),
      if_neg (by simp only [BBox.mk.injEq]; norm_num), if_pos rfl]
  have h₃ : resilientTry upstreamW 0 (bboxSW ⟨1, 0, -1, 2⟩) =
      some ⟨[], [⟨some 0, some 1, some 1, some 7, some 1, none, []⟩]⟩ := by
    rw [resilientTry_zero, hSW, upstreamW]
    rw [if_neg (by simp only [BBox.mk.injEq]; norm_num),
      if_neg (by simp only [BBox.mk.injEq]; norm_num),
      if_neg (by simp only [BBox.mk.injEq]; norm_num), if_pos rfl]
  have h₄ : resilientTry upstreamW 0 (bboxSE ⟨1, 0, -1, 2⟩) =
      some ⟨[], [⟨some 1, some 1, some 1, some 9, some 4, none, []⟩]⟩ := by
    rw [resilientTry_zero, hSE, upstreamW]
    rw [if_neg (by simp only [BBox.mk.injEq]; norm_num),
      if_neg (by simp only [BBox.mk.injEq]; norm_num),
      if_neg (by simp only [BBox.mk.injEq]; norm_num),
      if_neg (by simp only [BBox.mk.injEq]; norm_num)]
  have h := geogrid_resilient_split_merge upstreamW 0 ⟨1, 0, -1, 2⟩
    ⟨[], [⟨some 0, some 0, some 1, some 3, some 1, none, []⟩]⟩
    ⟨[], [⟨some 1, some 0, some 1, some 5, some 2, none, []⟩]⟩
    ⟨[], [⟨some 0, some 1, some 1, some 7, some 1, none, []⟩]⟩
    ⟨[], [⟨some 1, some 1, some 1, some 9, some 4, none, []⟩]⟩
    h400 h₁ h₂ h₃ h₄ (by decide)
  exact h.2.2.2

/-! ## Stable-sort theory (for the canonical hash) -/

theorem keyLE_total (a b : ℤ × ℤ) : keyLE a b || keyLE b a := by
  simp only [keyLE, Bool.or_eq_true, decide_eq_true_eq]
  omega

theorem keyLE_trans {a b c : ℤ × ℤ} (h₁ : keyLE a b = true) (h₂ : keyLE b c = true) :
    keyLE a c = true := by
  simp only [keyLE, decide_eq_true_eq] at *
  omega

theorem keyLE_antisymm {a b : ℤ × ℤ} (h₁ : keyLE a b = true) (h₂ : keyLE b a = true) :
    a = b := by
  simp only [keyLE, decide_eq_true_eq] at *
  rw [Prod.ext_iff]
  constructor <;> omega

theorem stableInsert_perm (le : α → α → Bool) (a : α) :
    ∀ l : List α, (stableInsert le a l).Perm (a :: l) := by
  intro l
  induction l with
  | nil => exact List.Perm.refl _
  | cons b t ih =>
    rw [stableInsert]
    split
    · exact (ih.cons b).trans (List.Perm.swap a b t)
    · exact List.Perm.refl _

theorem stableSort_perm (le : α → α → Bool) (l : List α) :
    (stableSort le l).Perm l := by
  suffices h : ∀ (l acc : List α),
      (l.foldl (fun acc a => stableInsert le a acc) acc).Perm (acc ++ l) by
    simpa using h l []
  intro l
  induction l with
  | nil => intro acc; simp
  | cons a t ih =>
    intro acc
    rw [List.foldl_cons]
    refine (ih (stableInsert le a acc)).trans ?_
    refine (List.Perm.append_right t (stableInsert_perm le a acc)).trans ?_
    have hc : (a :: acc) ++ t = a :: (acc ++ t) := rfl
    rw [hc]
    exact List.perm_middle.symm

theorem stableInsert_pairwise (le : α → α → Bool)
    (htrans : ∀ {x y z}, le x y = true → le y z = true → le x z = true)
    (htotal : ∀ x y, le x y || le y x) (a : α) :
    ∀ l : List α, l.Pairwise (fun x y => le x y = true) →
      (stableInsert le a l).Pairwise (fun x y => le x y = true) := by
  intro l
  induction l with
  | nil => intro _; exact List.pairwise_singleton _ a
  | cons b t ih =>
    intro h
    obtain ⟨hb, ht⟩ := List.pairwise_cons.mp h
    rw [stableInsert]
    split
    · rename_i hba
      refine List.pairwise_cons.mpr ⟨?_, ih ht⟩
      intro x hx
      rcases List.mem_cons.mp ((stableInsert_perm le a t).mem_iff.mp hx) with rfl | hxt
      · exact hba
      · exact hb x hxt
    · rename_i hba
      have hab : le a b = true := by
        rcases Bool.or_eq_true _ _ |>.mp (htotal b a) with h' | h'
        · exact absurd h' hba
        · exact h'
      refine List.pairwise_cons.mpr ⟨?_, h⟩
      intro x hx
      rcases List.mem_cons.mp hx with rfl | hxt
      · exact hab
      · exact htrans hab (hb x hxt)

theorem stableSort_pairwise (le : α → α → Bool)
    (htrans : ∀ {x y z}, le x y = true → le y z = true → le x z = true)
    (htotal : ∀ x y, le x y || le y x) (l : List α) :
    (stableSort le l).Pairwise (fun x y => le x y = true) := by
  suffices h : ∀ (l acc : List α), acc.Pairwise (fun x y => le x y = true) →
      (l.foldl (fun acc a => stableInsert le a acc) acc).Pairwise
        (fun x y => le x y = true) by
    exact h l [] List.Pairwise.nil
  intro l
  induction l with
  | nil => intro acc hacc; exact hacc
  | cons a t ih =>
    intro acc hacc
    rw [List.foldl_cons]
    exact ih _ (stableInsert_pairwise le htrans htotal a acc hacc)

/-- Two sorted lists that are permutations of each other and whose
keys are pairwise distinct (with the order antisymmetric on keys) are
equal. -/
theorem sorted_eq_of_perm_of_nodup_keys {κ : Type} [DecidableEq κ]
    (le : α → α → Bool) (key : α → κ)
    (hanti : ∀ a b, le a b = true → le b a = true → key a = key b) :
    ∀ (l₁ l₂ : List α), l₁.Perm l₂ →
      l₁.Pairwise (fun x y => le x y = true) →
      l₂.Pairwise (fun x y => le x y = true) →
      (l₁.map key).Nodup → l₁ = l₂ := by
  intro l₁
  induction l₁ with
  | nil => intro l₂ hp _ _ _; exact hp.nil_eq
  | cons a t ih =>
    intro l₂ hp h₁ h₂ hnd
    cases l₂ with
    | nil => exact absurd hp.symm.nil_eq (by simp)
    | cons b t₂ =>
      by_cases hab : a = b
      · subst hab
        rw [ih t₂ hp.cons_inv (List.pairwise_cons.mp h₁).2
          (List.pairwise_cons.mp h₂).2 (by simpa using (List.nodup_cons.mp (by simpa using hnd)).2)]
      · have hbt : b ∈ t := by
          have : b ∈ a :: t := hp.mem_iff.mpr (List.mem_cons_self b t₂)
          rcases List.mem_cons.mp this with h' | h'
          · exact absurd h'.symm hab
          · exact h'
        have hat₂ : a ∈ t₂ := by
          have : a ∈ b :: t₂ := hp.mem_iff.mp (List.mem_cons_self a t)
          rcases List.mem_cons.mp this with h' | h'
          · exact absurd h' hab
          · exact h'
        have hab' : le a b = true := (List.pairwise_cons.mp h₁).1 b hbt
        have hba : le b a = true := (List.pairwise_cons.mp h₂).1 a hat₂
        have hkey : key a = key b := hanti a b hab' hba
        have hain : key a ∈ t.map key := hkey ▸ List.mem_map_of_mem key hbt
        exact absurd hain (List.nodup_cons.mp (by simpa using hnd)).1

/-- Stable sort by `(x, y)` is invariant under permutation when the
keys are pairwise distinct. -/
theorem stableSort_eq_of_perm {l₁ l₂ : List SlimCell} (h : l₁.Perm l₂)
    (hnd : (l₁.map fun s => (s.x, s.y)).Nodup) :
    stableSort slimLE l₁ = stableSort slimLE l₂ := by
  apply sorted_eq_of_perm_of_nodup_keys slimLE (fun s => (s.x, s.y))
    (fun a b h₁ h₂ => keyLE_antisymm h₁ h₂)
  · exact ((stableSort_perm slimLE l₁).trans h).trans (stableSort_perm slimLE l₂).symm
  · exact stableSort_pairwise slimLE (fun h₁ h₂ => keyLE_trans h₁ h₂)
      (fun x y => keyLE_total (x.x, x.y) (y.x, y.y)) l₁
  · exact stableSort_pairwise slimLE (fun h₁ h₂ => keyLE_trans h₁ h₂)
      (fun x y => keyLE_total (x.x, x.y) (y.x, y.y)) l₂
  · exact ((stableSort_perm slimLE l₁).map (fun s => (s.x, s.y))).nodup_iff.mpr hnd

/-! ## Claim C6 — hash invariance -/

/-- The slim projection reads only projected fields. -/
theorem slimOfCell_proj (c : GridCell) : slimOfCell (projCell c) = slimOfCell c := by
  rcases c with ⟨x, y, z, o, t, bb, ex⟩
  rcases bb with _ | ⟨tl, br, bex⟩
  · rfl
  · rcases tl with _ | ⟨la, lo, pex⟩ <;> rcases br with _ | ⟨la2, lo2, pex2⟩ <;> rfl

/-- The slim tuple carries the cell's own `x`/`y` and the `or 0`
count coercions. -/
theorem slimOfCell_xy {c : GridCell} {s : SlimCell} (h : slimOfCell c = some s) :
    c.x = some s.x ∧ c.y = some s.y ∧
    s.observationsCount = obsD c ∧ s.taxaCount = taxaD c := by
  simp only [slimOfCell, Option.bind_eq_bind, Option.bind_eq_some, Option.some.injEq] at h
  obtain ⟨x, hx, y, hy, z, hz, tlat, htlat, tlon, htlon, blat, hblat, blon, hblon, rfl⟩ := h
  exact ⟨hx, hy, rfl, rfl⟩


theorem mapM_of_map_some {α β : Type} {f : α → Option β} :
    ∀ {l : List α} {l' : List β}, l.map f = l'.map some → l.mapM f = some l' := by
  intro l
  induction l with
  | nil =>
    intro l' h
    cases l' with
    | nil => rfl
    | cons b t => simp at h
  | cons a t ih =>
    intro l' h
    cases l' with
    | nil => simp at h
    | cons b t' =>
      simp only [List.map_cons, List.cons.injEq] at h
      rw [List.mapM_cons, h.1, ih h.2]
      simp only [Option.bind_eq_bind, Option.some_bind]
      rfl

theorem map_eq_of_forall₂ {α β γ : Type} {R : α → β → Prop} {f : α → γ} {g : β → γ}
    (hfg : ∀ a b, R a b → f a = g b) :
    ∀ {l : List α} {l' : List β}, List.Forall₂ R l l' → l.map f = l'.map g := by
  intro l l' h
  induction h with
  | nil => rfl
  | cons hab _ ih => simp [ih, hfg _ _ hab]

theorem mapM_eq_map_some {α β : Type} {f : α → Option β} {l : List α} {l' : List β}
    (h : l.mapM f = some l') : l.map f = l'.map some :=
  map_eq_of_forall₂ (fun _ _ hab => hab) (mapM_some_forall₂ h)

theorem perm_of_map_some {β : Type} {l₁ l₂ : List β}
    (h : (l₁.map some).Perm (l₂.map some)) : l₁.Perm l₂ := by
  have h2 := h.filterMap id
  simpa using h2

theorem mapM_isSome {α β : Type} {f : α → Option β} :
    ∀ {l : List α}, (∀ a ∈ l, (f a).isSome) → (l.mapM f).isSome := by
  intro l
  induction l with
  | nil => intro _; rfl
  | cons a t ih =>
    intro h
    obtain ⟨b, hb⟩ := Option.isSome_iff_exists.mp (h a (List.mem_cons_self a t))
    obtain ⟨r, hr⟩ := Option.isSome_iff_exists.mp
      (ih fun x hx => h x (List.mem_cons_of_mem a hx))
    rw [List.mapM_cons, hb, hr]
    rfl

/-- **C6 counterexample.**  The claim «`stable_gridcells_hash` is
invariant under every permutation of `gridCells`» fails at a concrete
input: two cells sharing `(x, y) = (0, 0)` but differing in `zoom`
keep their arrival order under the stable sort by `(x, y)` alone, so
swapping them changes the canonical tuple list (and hence the
serialized blob that is SHA-256-hashed). -/
theorem stable_gridcells_hash_perm_refuted :
    (([⟨some 0, some 0, some 1, some 1, some 1,
        some ⟨some ⟨some 0, some 0, []⟩, some ⟨some 0, some 0, []⟩, []⟩, []⟩,
       ⟨some 0, some 0, some 2, some 1, some 1,
        some ⟨some ⟨some 0, some 0, []⟩, some ⟨some 0, some 0, []⟩, []⟩, []⟩] :
      List GridCell).Perm
      [⟨some 0, some 0, some 2, some 1, some 1,
        some ⟨some ⟨some 0, some 0, []⟩, some ⟨some 0, some 0, []⟩, []⟩, []⟩,
       ⟨some 0, some 0, some 1, some 1, some 1,
        some ⟨some ⟨some 0, some 0, []⟩, some ⟨some 0, some 0, []⟩, []⟩, []⟩]) ∧
    stable_gridcells_hash
      ⟨[], [⟨some 0, some 0, some 1, some 1, some 1,
        some ⟨some ⟨some 0, some 0, []⟩, some ⟨some 0, some 0, []⟩, []⟩, []⟩,
       ⟨some 0, some 0, some 2, some 1, some 1,
        some ⟨some ⟨some 0, some 0, []⟩, some ⟨some 0, some 0, []⟩, []⟩, []⟩]⟩ ≠
    stable_gridcells_hash
      ⟨[], [⟨some 0, some 0, some 2, some 1, some 1,
        some ⟨some ⟨some 0, some 0, []⟩, some ⟨some 0, some 0, []⟩, []⟩, []⟩,
       ⟨some 0, some 0, some 1, some 1, some 1,
        some ⟨some ⟨some 0, some 0, []⟩, some ⟨some 0, some 0, []⟩, []⟩, []⟩]⟩ := by
  constructor
  · exact List.Perm.swap _ _ _
  · decide

/-- **C6 (amended).**  For payloads whose cells have pairwise-distinct
`(x, y)` keys — as genuine grid payloads do — `stable_gridcells_hash`
is invariant under reordering of `gridCells` and under addition or
removal of payload-level or cell-level keys outside the projected
tuple (modelled by the `extra` fields, which `projCell` erases): any
payload whose projected cell multiset is a permutation of the
original's hashes to the same canonical tuple list. -/
theorem stable_gridcells_hash_perm_invariant (p p' : Payload) (l : List SlimCell)
    (hperm : (p.gridCells.map projCell).Perm (p'.gridCells.map projCell))
    (hnd : (p.gridCells.map fun c => (c.x, c.y)).Nodup)
    (hok : stable_gridcells_hash p = some l) :
    stable_gridcells_hash p' = some l := by
  rw [stable_gridcells_hash] at hok
  cases hm : p.gridCells.mapM slimOfCell with
  | none => rw [hm] at hok; simp at hok
  | some l₀ =>
    rw [hm, Option.map_some'] at hok
    have hl : l = stableSort slimLE l₀ := (Option.some.injEq _ _ ▸ hok :).symm
    have hmapP : p.gridCells.map slimOfCell = (p.gridCells.map projCell).map slimOfCell := by
      rw [List.map_map]
      exact List.map_congr_left fun c _ => (slimOfCell_proj c).symm
    have hmapP' : p'.gridCells.map slimOfCell = (p'.gridCells.map projCell).map slimOfCell := by
      rw [List.map_map]
      exact List.map_congr_left fun c _ => (slimOfCell_proj c).symm
    have hpermS : (p.gridCells.map slimOfCell).Perm (p'.gridCells.map slimOfCell) := by
      rw [hmapP, hmapP']
      exact hperm.map slimOfCell
    have hsome : p.gridCells.map slimOfCell = l₀.map some := mapM_eq_map_some hm
    have hall' : ∀ c ∈ p'.gridCells, (slimOfCell c).isSome := by
      intro c hc
      have h1 : slimOfCell c ∈ p'.gridCells.map slimOfCell := List.mem_map_of_mem _ hc
      have h2 : slimOfCell c ∈ l₀.map some := by
        rw [← hsome]
        exact hpermS.mem_iff.mpr h1
      obtain ⟨s, _, hs⟩ := List.mem_map.mp h2
      rw [← hs]
      rfl
    have hmap' : p'.gridCells.map slimOfCell =
        (p'.gridCells.map fun c => (slimOfCell c).getD default).map some := by
      rw [List.map_map]
      apply List.map_congr_left
      intro c hc
      obtain ⟨s, hs⟩ := Option.isSome_iff_exists.mp (hall' c hc)
      simp [Function.comp, hs]
    have hm' : p'.gridCells.mapM slimOfCell =
        some (p'.gridCells.map fun c => (slimOfCell c).getD default) :=
      mapM_of_map_some hmap'
    have hperm₀ : l₀.Perm (p'.gridCells.map fun c => (slimOfCell c).getD default) := by
      apply perm_of_map_some
      rw [← hsome, ← hmap']
      exact hpermS
    have hkeymap : p.gridCells.map (fun c => (c.x, c.y)) =
        l₀.map fun s => ((some s.x : Option ℤ), (some s.y : Option ℤ)) :=
      map_eq_of_forall₂ (fun c s h => by
        obtain ⟨hx, hy, _, _⟩ := slimOfCell_xy h
        rw [hx, hy]) (mapM_some_forall₂ hm)
    have hndl₀ : (l₀.map fun s => (s.x, s.y)).Nodup := by
      have h1 : (l₀.map fun s => ((some s.x : Option ℤ), (some s.y : Option ℤ))).Nodup := by
        rw [← hkeymap]
        exact hnd
      have h2 : ((l₀.map fun s => (s.x, s.y)).map
          fun q : ℤ × ℤ => ((some q.1 : Option ℤ), (some q.2 : Option ℤ))).Nodup := by
        rw [List.map_map]
        exact h1
      exact h2.of_map
    rw [stable_gridcells_hash, hm', Option.map_some', hl]
    exact congrArg some (stableSort_eq_of_perm hperm₀ hndl₀).symm

/-- Witness for C6: the permuted, extra-key-decorated payload hashes
to the canonical list of the original. -/
theorem stable_gridcells_hash_perm_invariant_witness :
    stable_gridcells_hash
      ⟨[("extraTop", "1")],
       [⟨some 5, some 6, some 1, some 9, some 2,
          some ⟨some ⟨some 0, some 0, []⟩, some ⟨some 0, some 0, []⟩, []⟩,
          [("extraCell", "x")]⟩,
        ⟨some 1, some 2, some 1, some 4, some 1,
          some ⟨some ⟨some 0, some 0, []⟩, some ⟨some 0, some 0, []⟩, []⟩, []⟩]⟩ =
    some [⟨1, 2, 1, 4, 1, 0, 0, 0, 0⟩, ⟨5, 6, 1, 9, 2, 0, 0, 0, 0⟩] :=
  stable_gridcells_hash_perm_invariant
    ⟨[], [⟨some 1, some 2, some 1, some 4, some 1,
        some ⟨some ⟨some 0, some 0, []⟩, some ⟨some 0, some 0, []⟩, []⟩, []⟩,
      ⟨some 5, some 6, some 1, some 9, some 2,
        some ⟨some ⟨some 0, some 0, []⟩, some ⟨some 0, some 0, []⟩, []⟩, []⟩]⟩
    ⟨[("extraTop", "1")],
     [⟨some 5, some 6, some 1, some 9, some 2,
        some ⟨some ⟨some 0, some 0, []⟩, some ⟨some 0, some 0, []⟩, []⟩,
        [("extraCell", "x")]⟩,
      ⟨some 1, some 2, some 1, some 4, some 1,
        some ⟨some ⟨some 0, some 0, []⟩, some ⟨some 0, some 0, []⟩, []⟩, []⟩]⟩
    [⟨1, 2, 1, 4, 1, 0, 0, 0, 0⟩, ⟨5, 6, 1, 9, 2, 0, 0, 0, 0⟩]
    (by decide) (by decide) (by decide)

/-! ## Claim C7 — defensive coercion of missing numeric fields -/

/-- **C7 counterexample.**  The claim «a cell with any missing numeric
field is processed with the field coerced to 0 rather than failing»
fails at concrete inputs: `stable_gridcells_hash` raises (`int(None)`)
on a cell lacking `zoom` even when every other field is present, and
`replace_taxon_grid` raises (`KeyError`) on a cell lacking `x`. -/
theorem missing_numeric_fields_claim_refuted :
    stable_gridcells_hash
      ⟨[], [⟨some 0, some 0, none, some 1, some 1,
        some ⟨some ⟨some 0, some 0, []⟩, some ⟨some 0, some 0, []⟩, []⟩, []⟩]⟩ = none ∧
    replace_taxon_grid [] 1 2 3
      [⟨none, some 0, some 1, some 1, some 1,
        some ⟨some ⟨some 0, some 0, []⟩, some ⟨some 0, some 0, []⟩, []⟩, []⟩] = none := by
  decide

/-- **C7 (amended).**  The `or 0` coercion applies exactly to
`observationsCount` and `taxaCount`: for every payload whose cells
carry `x`, `y`, `zoom` and all four boundingBox coordinates (and, for
the ingest path, pairwise-distinct `(x, y)` keys for the primary key),
`stable_gridcells_hash` and `replace_taxon_grid` succeed no matter
which of the two count fields are missing, reading a missing count as
`0`; a missing `x`, `y`, `zoom` or boundingBox coordinate raises. -/
theorem missing_counts_read_as_zero (p : Payload) (db : List TG) (t z s : ℤ)
    (hfields : ∀ c ∈ p.gridCells, c.x.isSome ∧ c.y.isSome ∧ c.zoom.isSome ∧
      ((c.boundingBox.getD emptyBox).topLeft.getD emptyPoint).latitude.isSome ∧
      ((c.boundingBox.getD emptyBox).topLeft.getD emptyPoint).longitude.isSome ∧
      ((c.boundingBox.getD emptyBox).bottomRight.getD emptyPoint).latitude.isSome ∧
      ((c.boundingBox.getD emptyBox).bottomRight.getD emptyPoint).longitude.isSome)
    (hnd : (p.gridCells.map fun c => (c.x, c.y)).Nodup) :
    (stable_gridcells_hash p).isSome ∧
    (replace_taxon_grid db t z s p.gridCells).isSome ∧
    (∀ c ∈ p.gridCells, ∀ sc : SlimCell, slimOfCell c = some sc →
      sc.observationsCount = c.observationsCount.getD 0 ∧
      sc.taxaCount = c.taxaCount.getD 0) ∧
    (∀ c ∈ p.gridCells, ∀ r : TG, rowOfCell t z s c = some r →
      r.observations_count = c.observationsCount.getD 0 ∧
      r.taxa_count = c.taxaCount.getD 0) := by
  have hslim : ∀ c ∈ p.gridCells, (slimOfCell c).isSome := by
    intro c hc
    obtain ⟨hx, hy, hz, h1, h2, h3, h4⟩ := hfields c hc
    obtain ⟨x, hx⟩ := Option.isSome_iff_exists.mp hx
    obtain ⟨y, hy⟩ := Option.isSome_iff_exists.mp hy
    obtain ⟨z', hz⟩ := Option.isSome_iff_exists.mp hz
    obtain ⟨a1, h1⟩ := Option.isSome_iff_exists.mp h1
    obtain ⟨a2, h2⟩ := Option.isSome_iff_exists.mp h2
    obtain ⟨a3, h3⟩ := Option.isSome_iff_exists.mp h3
    obtain ⟨a4, h4⟩ := Option.isSome_iff_exists.mp h4
    simp [slimOfCell, hx, hy, hz, h1, h2, h3, h4]
  have hrow : ∀ c ∈ p.gridCells, (rowOfCell t z s c).isSome := by
    intro c hc
    obtain ⟨hx, hy, _, h1, h2, h3, h4⟩ := hfields c hc
    obtain ⟨x, hx⟩ := Option.isSome_iff_exists.mp hx
    obtain ⟨y, hy⟩ := Option.isSome_iff_exists.mp hy
    obtain ⟨a1, h1⟩ := Option.isSome_iff_exists.mp h1
    obtain ⟨a2, h2⟩ := Option.isSome_iff_exists.mp h2
    obtain ⟨a3, h3⟩ := Option.isSome_iff_exists.mp h3
    obtain ⟨a4, h4⟩ := Option.isSome_iff_exists.mp h4
    simp [rowOfCell, hx, hy, h1, h2, h3, h4]
  refine ⟨?_, ?_, ?_, ?_⟩
  · rw [stable_gridcells_hash]
    obtain ⟨l₀, hl₀⟩ := Option.isSome_iff_exists.mp (mapM_isSome hslim)
    rw [hl₀]
    rfl
  · rw [replace_taxon_grid]
    obtain ⟨rows, hrows⟩ := Option.isSome_iff_exists.mp (mapM_isSome hrow)
    rw [hrows, Option.some_bind]
    have hkeymap : p.gridCells.map (fun c => (c.x, c.y)) =
        rows.map fun r => ((some r.x : Option ℤ), (some r.y : Option ℤ)) :=
      map_eq_of_forall₂ (fun c r h => by
        obtain ⟨_, _, _, hx, hy, _, _, _, _, _, _⟩ := rowOfCell_fields h
        rw [hx, hy]) (mapM_some_forall₂ hrows)
    have hndrows : (rows.map fun r => (r.x, r.y)).Nodup := by
      have h1 : (rows.map fun r => ((some r.x : Option ℤ), (some r.y : Option ℤ))).Nodup := by
        rw [← hkeymap]
        exact hnd
      have h2 : ((rows.map fun r => (r.x, r.y)).map
          fun q : ℤ × ℤ => ((some q.1 : Option ℤ), (some q.2 : Option ℤ))).Nodup := by
        rw [List.map_map]
        exact h1
      exact h2.of_map
    rw [if_pos hndrows]
    rfl
  · intro c hc sc h
    exact ⟨(slimOfCell_xy h).2.2.1, (slimOfCell_xy h).2.2.2⟩
  · intro c hc r h
    exact ⟨(rowOfCell_fields h).2.2.2.2.2.1, (rowOfCell_fields h).2.2.2.2.2.2.1⟩

/-- Witness for C7: a cell lacking both counts hashes and ingests
with both counts read as `0`. -/
theorem missing_counts_read_as_zero_witness :
    (stable_gridcells_hash
      ⟨[], [⟨some 3, some 4, some 1, none, none,
        some ⟨some ⟨some 0, some 0, []⟩, some ⟨some 0, some 0, []⟩, []⟩, []⟩]⟩).isSome ∧
    (replace_taxon_grid [] 1 2 3
      [⟨some 3, some 4, some 1, none, none,
        some ⟨some ⟨some 0, some 0, []⟩, some ⟨some 0, some 0, []⟩, []⟩, []⟩]).isSome ∧
    (∀ c ∈ ([⟨some 3, some 4, some 1, none, none,
        some ⟨some ⟨some 0, some 0, []⟩, some ⟨some 0, some 0, []⟩, []⟩, []⟩] : List GridCell),
      ∀ sc : SlimCell, slimOfCell c = some sc →
      sc.observationsCount = c.observationsCount.getD 0 ∧
      sc.taxaCount = c.taxaCount.getD 0) ∧
    (∀ c ∈ ([⟨some 3, some 4, some 1, none, none,
        some ⟨some ⟨some 0, some 0, []⟩, some ⟨some 0, some 0, []⟩, []⟩, []⟩] : List GridCell),
      ∀ r : TG, rowOfCell 1 2 3 c = some r →
      r.observations_count = c.observationsCount.getD 0 ∧
      r.taxa_count = c.taxaCount.getD 0) :=
  missing_counts_read_as_zero
    ⟨[], [⟨some 3, some 4, some 1, none, none,
      some ⟨some ⟨some 0, some 0, []⟩, some ⟨some 0, some 0, []⟩, []⟩, []⟩]⟩
    [] 1 2 3 (by decide) (by decide)

end Geomap
